import Mathlib

/-!
# next-ai-draw-io: the chat route and its instrumented transport

A shallow embedding of `src/app/api/chat/route.ts` and of `src/lib/logger.ts`.

* JavaScript strings that reach the route (environment values, decoded bodies)
  are sequences of Unicode scalar values and are modelled by `String`.
* Bytes are natural numbers below 256, a chunk (`Uint8Array`) is a list of bytes.
* Calls into the platform (`new URL`, `convertToModelMessages`, `streamText`)
  are parameters collected in `Platform`.
* Logging has no effect on any value the route returns and is left out of the
  route; the logger itself is modelled on its own.
-/

namespace DrawIO

/-! ## Environment values: `cleanEnvVar` -/

/-- The code points removed by `String.prototype.trim`: ECMAScript `WhiteSpace`
and `LineTerminator`. -/
def isTrimChar (c : Char) : Bool :=
  let n := c.toNat
  n == 9 || n == 10 || n == 11 || n == 12 || n == 13 || n == 32 || n == 160
    || n == 5760 || (8192 ≤ n && n ≤ 8202) || n == 8232 || n == 8233
    || n == 8239 || n == 8287 || n == 12288 || n == 65279

/-- `String.prototype.trim` on the characters of a string. -/
def jsTrim (s : List Char) : List Char :=
  ((s.dropWhile isTrimChar).reverse.dropWhile isTrimChar).reverse

/-- The character class `["']` of the regular expression in `cleanEnvVar`. -/
def isQuote (c : Char) : Bool :=
  c == Char.ofNat 34 || c == Char.ofNat 39

/-- The call `.replace(/^["']|["']$/g, '')`: the global replace removes a quote
matched at the start of the input (first alternative) and, scanning on, a quote
matched right before the end of the input (second alternative). The two
matches are independent and cannot overlap. -/
def stripQuotes (s : List Char) : List Char :=
  let s1 := match s with
    | c :: rest => if isQuote c then rest else s
    | [] => []
  match s1.getLast? with
  | some c => if isQuote c then s1.dropLast else s1
  | none => s1

/-- Source: `cleanEnvVar(value)` is `value?.trim().replace(/^["']|["']$/g, '')`. -/
def cleanEnvVar (value : Option String) : Option String :=
  value.map fun v => String.mk (stripQuotes (jsTrim v.data))

/-- JavaScript truthiness of a `string | undefined`: defined and not empty. -/
def truthy (v : Option String) : Bool :=
  match v with
  | some s => s != ""
  | none => false

/-- The variables of `process.env` the route reads. -/
structure Env where
  OPENAI_COMPATIBLE_BASE_URL : Option String
  OPENAI_COMPATIBLE_API_KEY : Option String
  OPENAI_COMPATIBLE_MODEL : Option String
  OPENAI_COMPATIBLE_TIMEOUT : Option String
  deriving DecidableEq, Repr

/-! ## Inbound request and model messages -/

/-- One part of an inbound UI message, with the fields the route reads; a
field the JSON object lacks is `none`. -/
structure Part where
  type : String
  text : Option String
  url : Option String
  mediaType : Option String
  deriving DecidableEq, Repr

/-- An inbound UI message; `parts` may be missing. -/
structure UIMessage where
  role : String
  parts : Option (List Part)
  deriving DecidableEq, Repr

/-- The JSON body of the request once `req.json()` has resolved. -/
structure RequestBody where
  messages : List UIMessage
  xml : Option String
  deriving DecidableEq, Repr

/-- An inbound request: `json` is `none` when `req.json()` rejects or the
parsed body has no `messages` array, so that reading `messages.length` throws. -/
structure Request where
  json : Option RequestBody
  deriving DecidableEq, Repr

/-- One content part of a model message. -/
inductive ContentPart where
  | text (text : String)
  | image (image : Option String) (mimeType : Option String)
  | other (tag : String)
  deriving DecidableEq, Repr

/-- The content of a model message: a plain string or a part sequence. -/
inductive Content where
  | str (s : String)
  | parts (ps : List ContentPart)
  deriving DecidableEq, Repr

/-- A provider-neutral model message as `convertToModelMessages` returns it;
`rest` stands for every field other than `role` and `content`. -/
structure ModelMessage where
  role : String
  content : Content
  rest : Option String
  deriving DecidableEq, Repr

/-! ## Provider selection -/

/-- The provider object built at module load by `createOpenAI`. -/
structure OpenAIProvider where
  apiKey : String
  baseURL : String
  deriving DecidableEq, Repr

/-- The model handle given to `streamText`. -/
inductive ModelHandle where
  | openaiChat (provider : OpenAIProvider) (modelId : String)
  | bedrock (modelId : String)
  deriving DecidableEq, Repr

/-- The object `providerOptions`: empty, or with the `anthropic` entry and its
`anthropic_beta` list. -/
structure ProviderOptions where
  anthropicBeta : Option (List String)
  deriving DecidableEq, Repr

/-- The arguments of the `streamText` call that depend on the request. The
system prompt, the two tool schemas and `temperature: 0` are constants of the
call. `providerOptions` is `none` when the object has no keys, `abortSignal`
holds the delay in milliseconds given to `AbortSignal.timeout`. -/
structure StreamTextCall where
  model : ModelHandle
  providerOptions : Option ProviderOptions
  abortSignal : Option Nat
  messages : List ModelMessage
  deriving DecidableEq, Repr

/-- What `new URL(baseUrl)` exposes to the route. -/
structure URLRecord where
  protocol : String
  hostname : String
  pathname : String
  deriving DecidableEq, Repr

/-- The platform and library calls of the route; `Except.error` carries the
message of the thrown error. -/
structure Platform where
  parseURL : String → Except String URLRecord
  convertToModelMessages : List UIMessage → Except String (List ModelMessage)
  streamText : StreamTextCall → Except String Unit
  toUIMessageStreamResponse : StreamTextCall → Except String Unit

/-- The response of `POST`: a JSON error object or the UI message stream of a
`streamText` call. -/
inductive Outcome where
  | json (status : Nat) (error : String)
  | stream (call : StreamTextCall)
  deriving DecidableEq, Repr

/-- The observable actions of `POST`, in order. -/
inductive Effect where
  | readBody
  | modelCall (call : StreamTextCall)
  deriving DecidableEq, Repr

/-- Source: the module-level `openaiCompatible`,
`(cleanBaseUrl && cleanApiKey) ? createOpenAI(...) : null`. -/
def openaiCompatible (moduleEnv : Env) : Option OpenAIProvider :=
  let cleanBaseUrl := cleanEnvVar moduleEnv.OPENAI_COMPATIBLE_BASE_URL
  let cleanApiKey := cleanEnvVar moduleEnv.OPENAI_COMPATIBLE_API_KEY
  if truthy cleanBaseUrl && truthy cleanApiKey then
    some { apiKey := cleanApiKey.getD "", baseURL := cleanBaseUrl.getD "" }
  else none

/-- The test `urlObj.protocol.match(/^https?:$/)`. -/
def isHttpProtocol (protocol : String) : Bool :=
  protocol == "http:" || protocol == "https:"

/-- Source: `POST`, lines 167-223, the configuration check. `some` is the JSON
error returned at once, `none` means the handler goes on to `req.json()`. -/
def validateConfig (P : Platform) (env : Env) : Option Outcome :=
  let baseUrl := cleanEnvVar env.OPENAI_COMPATIBLE_BASE_URL
  let apiKey := cleanEnvVar env.OPENAI_COMPATIBLE_API_KEY
  let model := cleanEnvVar env.OPENAI_COMPATIBLE_MODEL
  if truthy baseUrl then
    if !truthy apiKey then
      some (.json 500
        "OpenAI-compatible API is misconfigured: API key is required when base URL is set")
    else if !truthy model then
      some (.json 500
        "OpenAI-compatible API is misconfigured: Model name is required when base URL is set")
    else
      let checked : Except String Unit :=
        match P.parseURL (baseUrl.getD "") with
        | .error m => .error m
        | .ok urlObj =>
          if !isHttpProtocol urlObj.protocol then
            .error "URL must use HTTP or HTTPS protocol"
          else .ok ()
      match checked with
      | .error m =>
        some (.json 500
          ("OpenAI-compatible API is misconfigured: Invalid base URL format - " ++ m))
      | .ok _ => none
  else none

/-! ## Message transformer -/

/-- The fixed text of the template literal before `xml`. -/
def blockHead : String := "\nCurrent diagram XML:\n\"\"\"xml\n"

/-- The fixed text of the template literal between `xml` and the user text. -/
def blockMiddle : String := "\n\"\"\"\nUser input:\n\"\"\"md\n"

/-- The fixed text of the template literal after the user text. -/
def blockTail : String := "\n\"\"\""

/-- The template literal `formattedTextContent` with its two holes. -/
def compositeBlock (xml : String) (userText : String) : String :=
  blockHead ++ xml ++ blockMiddle ++ userText ++ blockTail

/-- The callback `part.type === 'text'`. -/
def Part.isText (part : Part) : Bool :=
  part.type == "text"

/-- The callback `part.type === 'file'`. -/
def Part.isFile (part : Part) : Bool :=
  part.type == "file"

/-- Source: `lastMessage.parts?.find(part => part.type === 'text')?.text || ''`. -/
def lastMessageText (lastMessage : UIMessage) : String :=
  match lastMessage.parts with
  | none => ""
  | some ps =>
    match ps.find? Part.isText with
    | some part => part.text.getD ""
    | none => ""

/-- Source: `lastMessage.parts?.filter(part => part.type === 'file') || []`. -/
def fileParts (lastMessage : UIMessage) : List Part :=
  match lastMessage.parts with
  | none => []
  | some ps => ps.filter Part.isFile

/-- Source: `formattedTextContent`, with `xml || ''` in the first hole. -/
def formattedTextContent (xml : Option String) (lastMessage : UIMessage) : String :=
  compositeBlock (xml.getD "") (lastMessageText lastMessage)

/-- The object pushed for one file part:
`{ type: 'image', image: filePart.url, mimeType: filePart.mediaType }`. -/
def imagePart (filePart : Part) : ContentPart :=
  .image filePart.url filePart.mediaType

/-- Source: `contentParts`, the text part followed by one image part per file part. -/
def contentParts (xml : Option String) (lastMessage : UIMessage) : List ContentPart :=
  .text (formattedTextContent xml lastMessage) :: (fileParts lastMessage).map imagePart

/-- Source: `enhancedMessages`, lines 306-331. -/
def enhancedMessages (modelMessages : List ModelMessage) (xml : Option String)
    (lastMessage : UIMessage) : List ModelMessage :=
  match modelMessages.getLast? with
  | none => modelMessages
  | some lastModelMessage =>
    if lastModelMessage.role == "user" then
      modelMessages.dropLast ++
        [{ lastModelMessage with content := .parts (contentParts xml lastMessage) }]
    else modelMessages

/-! ## `POST` -/

/-- Source: `useOpenAICompatible = openaiCompatible && model`, as the provider
to use when the conjunction is truthy. -/
def useOpenAICompatible (moduleEnv env : Env) : Option (OpenAIProvider × String) :=
  match openaiCompatible moduleEnv, cleanEnvVar env.OPENAI_COMPATIBLE_MODEL with
  | some p, some m => if m != "" then some (p, m) else none
  | _, _ => none

/-- Source: `selectedModel`. -/
def selectedModel (moduleEnv env : Env) : ModelHandle :=
  match useOpenAICompatible moduleEnv env with
  | some (p, m) => .openaiChat p m
  | none => .bedrock "global.anthropic.claude-sonnet-4-5-20250929-v1:0"

/-- Source: `providerOptions`, and the spread that passes it only when it has a key. -/
def providerOptions (moduleEnv env : Env) : Option ProviderOptions :=
  match useOpenAICompatible moduleEnv env with
  | some _ => none
  | none => some { anthropicBeta := some ["fine-grained-tool-streaming-2025-05-14"] }

/-- The value of a run of decimal digits. -/
def digitsValue (digits : List Char) : Nat :=
  digits.foldl (fun acc c => acc * 10 + (c.toNat - 48)) 0

/-- Source: `parseInt(value, 10)`: leading white space is skipped, one sign is
read, then the longest run of decimal digits; `none` is `NaN`, the result when
there is no digit. -/
def parseInt10 (value : String) : Option Int :=
  let trimmed := value.data.dropWhile isTrimChar
  let negative := trimmed.head? == some (Char.ofNat 45)
  let unsigned :=
    match trimmed with
    | c :: rest => if c == Char.ofNat 45 || c == Char.ofNat 43 then rest else trimmed
    | [] => []
  let digits := unsigned.takeWhile Char.isDigit
  if digits.isEmpty then none
  else if negative then some (-(digitsValue digits : Int))
  else some (digitsValue digits : Int)

/-- Source: `AbortSignal.timeout(delay)` on the result of `parseInt`, as
Node.js validates its argument: `NaN`, a negative value and a value above
4294967295 throw a `RangeError`. -/
def abortSignalTimeout (delay : Option Int) : Except String Nat :=
  match delay with
  | none => .error "RangeError: The value of delay is out of range"
  | some n =>
    if 0 ≤ n ∧ n ≤ 4294967295 then .ok n.toNat
    else .error "RangeError: The value of delay is out of range"

/-- Source: `abortSignal`, lines 360-362:
`useOpenAICompatible && process.env.OPENAI_COMPATIBLE_TIMEOUT
  ? AbortSignal.timeout(parseInt(process.env.OPENAI_COMPATIBLE_TIMEOUT, 10)) : undefined`. -/
def abortSignal (moduleEnv env : Env) : Except String (Option Nat) :=
  match useOpenAICompatible moduleEnv env with
  | some _ =>
    if truthy env.OPENAI_COMPATIBLE_TIMEOUT then
      match abortSignalTimeout (parseInt10 (env.OPENAI_COMPATIBLE_TIMEOUT.getD "")) with
      | .error e => .error e
      | .ok delay => .ok (some delay)
    else .ok none
  | none => .ok none

/-- Source: the `try` block of `POST`. The first component lists the actions
performed, the second is the response or the message of the exception that
escapes to the top-level `catch`. Between the conversion and the call of
`streamText` two expressions can throw: `AbortSignal.timeout(parseInt(...))`
at lines 360-362, and at line 372 the argument
`JSON.stringify(enhancedMessages[0], null, 2).substring(0, 300)`, which is
evaluated whatever the log level and fails on an empty list, where
`JSON.stringify(undefined)` is `undefined`. -/
def POST.attempt (P : Platform) (moduleEnv env : Env) (req : Request) :
    List Effect × Except String Outcome :=
  match validateConfig P env with
  | some err => ([], .ok err)
  | none =>
    match req.json with
    | none => ([.readBody], .error "Unexpected end of JSON input")
    | some body =>
      match body.messages.getLast? with
      | none => ([.readBody], .error "Cannot read properties of undefined")
      | some lastMessage =>
        match P.convertToModelMessages body.messages with
        | .error e => ([.readBody], .error e)
        | .ok modelMessages =>
          match abortSignal moduleEnv env with
          | .error e => ([.readBody], .error e)
          | .ok signal =>
            match enhancedMessages modelMessages body.xml lastMessage with
            | [] => ([.readBody], .error "Cannot read properties of undefined")
            | first :: others =>
              let call : StreamTextCall :=
                { model := selectedModel moduleEnv env
                  providerOptions := providerOptions moduleEnv env
                  abortSignal := signal
                  messages := first :: others }
              match P.streamText call with
              | .error e => ([.readBody, .modelCall call], .error e)
              | .ok _ =>
                match P.toUIMessageStreamResponse call with
                | .error e => ([.readBody, .modelCall call], .error e)
                | .ok _ => ([.readBody, .modelCall call], .ok (.stream call))

/-- Source: `POST`, the `try` block with its top-level `catch`. -/
def POST (P : Platform) (moduleEnv env : Env) (req : Request) : List Effect × Outcome :=
  match POST.attempt P moduleEnv env req with
  | (effects, .ok out) => (effects, out)
  | (effects, .error _) => (effects, .json 500 "Internal server error")

/-- Source: `String.prototype.startsWith` on character lists. -/
def startsWith : List Char → List Char → Bool
  | _, [] => true
  | [], _ :: _ => false
  | c :: s, d :: sub => c == d && startsWith s sub

/-- Source: `String.prototype.includes` on character lists. -/
def includes (s sub : List Char) : Bool :=
  match s with
  | [] => startsWith [] sub
  | c :: rest => startsWith (c :: rest) sub || includes rest sub

/-- The fence of the template literal: three double quotes. -/
def fence : List Char := [Char.ofNat 34, Char.ofNat 34, Char.ofNat 34]

/-- A stand-in for `new URL`, used to instantiate statements at concrete
inputs: the text before the first colon is the scheme, a string without a
colon does not parse. -/
def demoParseURL (s : String) : Except String URLRecord :=
  if s.data.contains (Char.ofNat 58) then
    .ok { protocol := String.mk (s.data.takeWhile (fun c => c != Char.ofNat 58)) ++ ":"
          hostname := ""
          pathname := "" }
  else .error "Invalid URL"

/-- A platform for concrete runs: `demoParseURL`, a conversion that keeps the
role and the first text of each message, and a `streamText` and a
`toUIMessageStreamResponse` that do not throw. -/
def demoPlatform : Platform where
  parseURL := demoParseURL
  convertToModelMessages := fun ms =>
    .ok (ms.map fun m =>
      { role := m.role
        content := .str (((m.parts.getD []).find? Part.isText).elim "" (fun p => p.text.getD ""))
        rest := none })
  streamText := fun _ => .ok ()
  toUIMessageStreamResponse := fun _ => .ok ()

/-- One environment for concrete runs: endpoint, credential and model all set. -/
def demoEnv : Env :=
  { OPENAI_COMPATIBLE_BASE_URL := some " \"https://x.test\" "
    OPENAI_COMPATIBLE_API_KEY := some "k"
    OPENAI_COMPATIBLE_MODEL := some "m"
    OPENAI_COMPATIBLE_TIMEOUT := none }

/-- An environment for concrete runs: as `demoEnv`, with a timeout of 30000. -/
def demoTimeoutEnv : Env :=
  { demoEnv with OPENAI_COMPATIBLE_TIMEOUT := some "30000" }

/-- The environment with no variable set. -/
def emptyEnv : Env := ⟨none, none, none, none⟩

/-- A request for concrete runs: an assistant turn, then a user turn with a
text part and two attached files. -/
def demoRequest : Request :=
  ⟨some { messages :=
            [ { role := "assistant", parts := some [⟨"text", some "hello", none, none⟩] },
              { role := "user"
                parts := some [ ⟨"file", none, some "data:a", some "image/png"⟩,
                                ⟨"text", some "rename to New", none, none⟩,
                                ⟨"file", none, some "data:b", some "image/jpeg"⟩ ] } ]
          xml := some "<root/>" }⟩

/-- The conversion of `demoRequest` by `demoPlatform`. -/
def demoConverted : List ModelMessage :=
  [⟨"assistant", .str "hello", none⟩, ⟨"user", .str "rename to New", none⟩]

/-! ## Instrumented transport -/

/-- A chunk of a body stream, a `Uint8Array`: bytes as numbers below 256. -/
abbrev Chunk := List Nat

/-- The body of the upstream response as its reader delivers it: the chunks in
order, then end of stream (`failure = none`) or a rejected read with error
`e` (`failure = some e`). -/
structure BodyStream where
  chunks : List Chunk
  failure : Option String
  deriving DecidableEq, Repr

/-- The result of one `await reader.read()`. -/
inductive ReadResult where
  | value (c : Chunk)
  | done
  | throws (e : String)
  deriving DecidableEq, Repr

/-- One `reader.read()` on the upstream body: the result and the body left. -/
def BodyStream.read (b : BodyStream) : ReadResult × BodyStream :=
  match b.chunks with
  | c :: cs => (.value c, { b with chunks := cs })
  | [] =>
    match b.failure with
    | none => (.done, b)
    | some e => (.throws e, b)

/-- The response `fetch(url, init)` resolves to. `headers` is the header list
as the `Headers` iterator yields it, `body` is `none` for a null body. -/
structure Response where
  status : Nat
  statusText : String
  headers : List (String × String)
  body : Option BodyStream
  deriving DecidableEq, Repr

/-- Source: `response.ok`, a status from 200 to 299. -/
def Response.ok (r : Response) : Bool :=
  200 ≤ r.status && r.status ≤ 299

/-- Source: `headers.get(name)`: the values of the headers whose name matches
`name` without regard to ASCII case, joined by a comma and a space, or `none`
(`null`) when there is none. -/
def headersGet (headers : List (String × String)) (name : String) : Option String :=
  match (headers.filter fun kv => kv.1.data.map Char.toLower == name.data.map Char.toLower).map
      Prod.snd with
  | [] => none
  | v :: vs => some (", ".intercalate (v :: vs))

/-- Source: `isStreaming`,
`headers.get('content-type')?.includes('text/event-stream') ||
 headers.get('transfer-encoding')?.includes('chunked')` as a truth value. -/
def isStreaming (r : Response) : Bool :=
  (match headersGet r.headers "content-type" with
    | some v => includes v.data "text/event-stream".data
    | none => false)
  || (match headersGet r.headers "transfer-encoding" with
    | some v => includes v.data "chunked".data
    | none => false)

/-! ### UTF-8, as `response.text()` decodes and `new Response(string)` encodes -/

/-- The replacement character U+FFFD. -/
def replacementChar : Char := Char.ofNat 65533

/-- The UTF-8 encoder of the Encoding standard on one scalar value. -/
def utf8EncodeChar (c : Char) : List Nat :=
  let n := c.toNat
  if n < 128 then [n]
  else if n < 2048 then [192 + n / 64, 128 + n % 64]
  else if n < 65536 then [224 + n / 4096, 128 + n / 64 % 64, 128 + n % 64]
  else [240 + n / 262144, 128 + n / 4096 % 64, 128 + n / 64 % 64, 128 + n % 64]

/-- UTF-8 encode: the bytes of a string given as body to `new Response`. -/
def utf8Encode : List Char → List Nat
  | [] => []
  | c :: s => utf8EncodeChar c ++ utf8Encode s

/-- The state of the UTF-8 decoder of the Encoding standard. -/
structure Utf8Decoder where
  codePoint : Nat
  bytesSeen : Nat
  bytesNeeded : Nat
  lower : Nat
  upper : Nat
  deriving DecidableEq, Repr

/-- The initial decoder state: no bytes needed, boundaries 0x80 and 0xBF. -/
def Utf8Decoder.start : Utf8Decoder :=
  { codePoint := 0, bytesSeen := 0, bytesNeeded := 0, lower := 128, upper := 191 }

/-- The decoder handler on a byte when no bytes are needed: the new state and
the characters emitted. -/
def utf8Lead (b : Nat) : Utf8Decoder × List Char :=
  if b ≤ 127 then (Utf8Decoder.start, [Char.ofNat b])
  else if 194 ≤ b ∧ b ≤ 223 then
    ({ Utf8Decoder.start with bytesNeeded := 1, codePoint := b % 32 }, [])
  else if 224 ≤ b ∧ b ≤ 239 then
    ({ codePoint := b % 16, bytesSeen := 0, bytesNeeded := 2,
       lower := if b = 224 then 160 else 128,
       upper := if b = 237 then 159 else 191 }, [])
  else if 240 ≤ b ∧ b ≤ 244 then
    ({ codePoint := b % 8, bytesSeen := 0, bytesNeeded := 3,
       lower := if b = 240 then 144 else 128,
       upper := if b = 244 then 143 else 191 }, [])
  else (Utf8Decoder.start, [replacementChar])

/-- The decoder handler on one byte. A byte outside the boundaries ends the
sequence with U+FFFD and is then handled again from the initial state. -/
def utf8Step (d : Utf8Decoder) (b : Nat) : Utf8Decoder × List Char :=
  if d.bytesNeeded = 0 then utf8Lead b
  else if b < d.lower ∨ d.upper < b then
    ((utf8Lead b).1, replacementChar :: (utf8Lead b).2)
  else if d.bytesSeen + 1 = d.bytesNeeded then
    (Utf8Decoder.start, [Char.ofNat (d.codePoint * 64 + b % 64)])
  else
    ({ codePoint := d.codePoint * 64 + b % 64, bytesSeen := d.bytesSeen + 1,
       bytesNeeded := d.bytesNeeded, lower := 128, upper := 191 }, [])

/-- The decoder run over a byte sequence; at end of input an unfinished
sequence gives U+FFFD. -/
def utf8Run (d : Utf8Decoder) : List Nat → List Char
  | [] => if d.bytesNeeded = 0 then [] else [replacementChar]
  | b :: bs => (utf8Step d b).2 ++ utf8Run (utf8Step d b).1 bs

/-- UTF-8 decode of the Encoding standard: a leading byte order mark
EF BB BF is dropped, the rest goes through the decoder. -/
def utf8Decode (bytes : List Nat) : List Char :=
  match bytes with
  | 239 :: 187 :: 191 :: rest => utf8Run Utf8Decoder.start rest
  | _ => utf8Run Utf8Decoder.start bytes

/-- All bytes of a list of chunks, in order. -/
def concatChunks : List Chunk → List Nat
  | [] => []
  | c :: cs => c ++ concatChunks cs

/-- Source: `await response.text()`. `used` says that the body was consumed
before. A null body gives the empty string; a body consumed before, or one
whose reading fails, rejects; otherwise all bytes are UTF-8 decoded. -/
def Response.text (r : Response) (used : Bool) : Except String String :=
  match r.body with
  | none => .ok ""
  | some b =>
    if used then .error "Body is unusable"
    else
      match b.failure with
      | some e => .error e
      | none => .ok (String.mk (utf8Decode (concatChunks b.chunks)))

/-- The body of the response the wrapper returns: `text s` is a string given
to `new Response`, whose bytes are the UTF-8 encoding of `s`; `relay src` is
the `ReadableStream` of lines 111-135 pumping from the upstream reader;
`upstream b used` is the body of the upstream response object itself,
consumed before (`used`) or not. -/
inductive WrappedBody where
  | text (s : String)
  | relay (src : BodyStream)
  | upstream (b : Option BodyStream) (used : Bool)
  deriving DecidableEq, Repr

/-- The response the wrapper returns. -/
structure WrappedResponse where
  status : Nat
  statusText : String
  headers : List (String × String)
  body : WrappedBody
  deriving DecidableEq, Repr

/-- The `reason-phrase` production the `Response` constructor checks
`statusText` against: tab, space, visible ASCII and obs-text bytes. -/
def isReasonPhrase (s : String) : Bool :=
  s.data.all fun c => c.toNat == 9 || c.toNat == 32 || (33 ≤ c.toNat && c.toNat ≤ 126)
    || (128 ≤ c.toNat && c.toNat ≤ 255)

/-- The null body statuses of the Fetch standard. -/
def isNullBodyStatus (status : Nat) : Bool :=
  status == 101 || status == 103 || status == 204 || status == 205 || status == 304

/-- The checks of `new Response(body, { status, statusText, headers })` with a
body that is not null: a status outside 200..599 throws a `RangeError`, a
status text that is no reason phrase and a null body status throw a
`TypeError`. -/
def responseInitError (status : Nat) (statusText : String) : Option String :=
  if status < 200 ∨ 599 < status then some "RangeError: init.status is out of range"
  else if !isReasonPhrase statusText then some "TypeError: Invalid statusText"
  else if isNullBodyStatus status then some "TypeError: Invalid response status code"
  else none

/-- The order in which a `Headers` object lists its entries: header names
compared byte by byte. -/
def nameLt : List Char → List Char → Bool
  | _, [] => false
  | [], _ :: _ => true
  | a :: s, b :: t => decide (a.toNat < b.toNat) || (a.toNat == b.toNat && nameLt s t)

/-- A header list is in the order of the `Headers` iterator: no entry has a
name below the name of an entry before it. -/
def headersSorted (headers : List (String × String)) : Prop :=
  headers.Pairwise fun a b => nameLt b.1.data a.1.data = false

/-- The header list with one more entry, as the `Headers` iterator lists it:
the entry stands before the first entry with a greater name. -/
def insertHeader (h : String × String) : List (String × String) → List (String × String)
  | [] => [h]
  | k :: rest =>
    if nameLt h.1.data k.1.data then h :: k :: rest else k :: insertHeader h rest

/-- Source: `new Response(text, { status, statusText, headers })` with a string
body. The constructor copies the headers and, the body being a string, adds
`content-type: text/plain;charset=UTF-8` when no content type is present; the
headers of the new response list it at its place in name order. -/
def newTextResponse (text : String) (r : Response) : Except String WrappedResponse :=
  match responseInitError r.status r.statusText with
  | some e => .error e
  | none =>
    .ok { status := r.status
          statusText := r.statusText
          headers :=
            match headersGet r.headers "content-type" with
            | some _ => r.headers
            | none => insertHeader ("content-type", "text/plain;charset=UTF-8") r.headers
          body := .text text }

/-- Source: `new Response(stream, { status, statusText, headers })` with the
relay stream as body; a stream body adds no header. -/
def newStreamResponse (src : BodyStream) (r : Response) : Except String WrappedResponse :=
  match responseInitError r.status r.statusText with
  | some e => .error e
  | none =>
    .ok { status := r.status, statusText := r.statusText, headers := r.headers,
          body := .relay src }

/-- Source: the two `try` blocks that read the body with `response.text()` and
return `new Response(text, ...)`; `none` when the `catch` logs the error and
the code falls through. -/
def rebuild (r : Response) (used : Bool) : Option WrappedResponse :=
  match r.text used with
  | .error _ => none
  | .ok text =>
    match newTextResponse text r with
    | .error _ => none
    | .ok w => some w

/-- Source: the `fetch` option of `createOpenAI`, lines 28-161. `net` is the
outcome of the inner `fetch(url, init)`; a transport error is thrown again. -/
def openaiCompatible.fetch (net : Except String Response) : Except String WrappedResponse :=
  match net with
  | .error fetchError => .error fetchError
  | .ok response =>
    match (if response.ok then none else rebuild response false) with
    | some w => .ok w
    | none =>
      let used := !response.ok && response.body.isSome
      if isStreaming response then
        match response.body with
        | some originalBody =>
          if used then .error "TypeError: ReadableStream is locked"
          else newStreamResponse originalBody response
        | none =>
          .ok { status := response.status, statusText := response.statusText,
                headers := response.headers, body := .upstream none false }
      else
        match rebuild response used with
        | some w => .ok w
        | none =>
          .ok { status := response.status, statusText := response.statusText,
                headers := response.headers,
                body := .upstream response.body response.body.isSome }

/-- The bytes a consumer reads from a wrapped body that is buffered or
untouched: the encoding of the string, or the bytes of the upstream body;
`none` for the relay (see `RelaySystem`), for a consumed body and for a body
whose reading fails. -/
def WrappedBody.bytes : WrappedBody → Option (List Nat)
  | .text s => some (utf8Encode s.data)
  | .relay _ => none
  | .upstream none _ => some []
  | .upstream (some b) used =>
    if used then none
    else match b.failure with
      | none => some (concatChunks b.chunks)
      | some _ => none

/-! ### The pass-through relay -/

/-- The state of a `ReadableStream`. -/
inductive StreamState where
  | readable
  | closed
  | errored (e : String)
  deriving DecidableEq, Repr

/-- How the stream ended for the consumer: a read resolved with `done`, or a
read rejected with an error. -/
inductive Ending where
  | done
  | error (e : String)
  deriving DecidableEq, Repr

/-- The relay of lines 108-135 together with its consumer: the upstream
reader, the loop of `start`, the default controller of the new stream (its
queue, its close-requested flag, the stream state) and the consumer, a read
loop with at most one read request outstanding. -/
structure RelaySystem where
  source : BodyStream
  running : Bool
  chunkCount : Nat
  queue : List Chunk
  closeRequested : Bool
  state : StreamState
  pendingRead : Bool
  received : List Chunk
  ending : Option Ending
  deriving DecidableEq, Repr

/-- The system right after `new ReadableStream({ start })`. -/
def RelaySystem.init (src : BodyStream) : RelaySystem :=
  { source := src, running := true, chunkCount := 0, queue := [], closeRequested := false,
    state := .readable, pendingRead := false, received := [], ending := none }

/-- Source: `controller.enqueue(value)` (Streams standard): throws when the
stream is not readable or close was requested; hands the chunk to a pending
read request, otherwise appends it to the queue. -/
def controllerEnqueue (s : RelaySystem) (value : Chunk) : Except String RelaySystem :=
  if s.closeRequested || s.state != .readable then
    .error "TypeError: Invalid state: Controller is already closed"
  else if s.pendingRead then
    .ok { s with pendingRead := false, received := s.received ++ [value] }
  else .ok { s with queue := s.queue ++ [value] }

/-- Source: `controller.close()` (Streams standard): throws when the stream is
not readable or close was requested; with an empty queue the stream closes and
a pending read resolves with `done`, otherwise the queue is left to drain. -/
def controllerClose (s : RelaySystem) : Except String RelaySystem :=
  if s.closeRequested || s.state != .readable then
    .error "TypeError: Invalid state: Controller is already closed"
  else if s.queue.isEmpty then
    .ok { s with closeRequested := true, state := .closed, pendingRead := false,
                 ending := if s.pendingRead then some .done else s.ending }
  else .ok { s with closeRequested := true }

/-- Source: `controller.error(error)` (Streams standard,
ReadableStreamDefaultControllerError): nothing on a stream that is not
readable; otherwise the queue is reset, the stream becomes errored and a
pending read rejects with the error. -/
def controllerError (s : RelaySystem) (e : String) : RelaySystem :=
  if s.state != .readable then s
  else
    { s with queue := [], state := .errored e, pendingRead := false,
             ending := if s.pendingRead then some (.error e) else s.ending }

/-- Source: one iteration of the `while (true)` loop of `start`, with its
`try`/`catch`. Decoding the chunk for the log line cannot throw. -/
def relayStep (s : RelaySystem) : RelaySystem :=
  if !s.running then s
  else
    match s.source.read with
    | (.done, src) =>
      match controllerClose { s with source := src } with
      | .ok s1 => { s1 with running := false }
      | .error e => { controllerError { s with source := src } e with running := false }
    | (.value value, src) =>
      match controllerEnqueue { s with source := src, chunkCount := s.chunkCount + 1 } value with
      | .ok s1 => s1
      | .error e =>
        { controllerError { s with source := src, chunkCount := s.chunkCount + 1 } e with
          running := false }
    | (.throws e, src) => { controllerError { s with source := src } e with running := false }

/-- One `reader.read()` of the consumer (Streams standard): nothing when its
loop has ended or a read is pending; on an errored stream the read rejects, on
a closed one it resolves with `done`; on a readable one it takes the first
queued chunk, closing the stream when close was requested and the queue is now
empty, or stays pending on an empty queue. -/
def consumerStep (s : RelaySystem) : RelaySystem :=
  if s.ending.isSome || s.pendingRead then s
  else
    match s.state with
    | .errored e => { s with ending := some (.error e) }
    | .closed => { s with ending := some .done }
    | .readable =>
      match s.queue with
      | c :: q =>
        { s with queue := q, received := s.received ++ [c],
                 state := if s.closeRequested && q.isEmpty then .closed else .readable }
      | [] => { s with pendingRead := true }

/-- Who takes the next step. -/
inductive Actor where
  | relay
  | consumer
  deriving DecidableEq, Repr

/-- One step of the system. -/
def RelaySystem.step (s : RelaySystem) : Actor → RelaySystem
  | .relay => relayStep s
  | .consumer => consumerStep s

/-- The system after the steps of a schedule, in order. -/
def RelaySystem.run (sched : List Actor) (s : RelaySystem) : RelaySystem :=
  sched.foldl RelaySystem.step s

/-- The schedule in which the consumer asks for each chunk before the relay
reads it, `n` times. -/
def keepUp : Nat → List Actor
  | 0 => []
  | n + 1 => .consumer :: .relay :: keepUp n

/-- The invariant of the relay over a body that ends normally with the chunks
`chunks`: what the consumer received, what is queued and what is still
upstream make up `chunks`; close is requested exactly when the loop has ended,
and then nothing is left upstream; the stream is closed exactly when close was
requested and the queue is empty; a pending read means an empty queue; the
consumer has seen no ending, or `done` after the queue was drained. -/
def NormalInv (chunks : List Chunk) (s : RelaySystem) : Prop :=
  s.source.failure = none ∧
  s.received ++ (s.queue ++ s.source.chunks) = chunks ∧
  s.closeRequested = !s.running ∧
  s.state = (if s.closeRequested && s.queue.isEmpty then .closed else .readable) ∧
  (s.running = false → s.source.chunks = []) ∧
  (s.pendingRead = true → s.queue = [] ∧ s.running = true ∧ s.ending = none) ∧
  (s.ending = none ∨ (s.ending = some .done ∧ s.running = false ∧ s.queue = []))

/-- The invariant of the relay over a body that fails with `e` after the chunks
`chunks`: close is never requested; while the loop runs the stream is readable
and received, queued and upstream chunks make up `chunks`; once it has ended
the stream is errored with `e`, the queue is empty and the chunks received are
an initial part of `chunks`; the consumer has seen no ending, or the error. -/
def FailInv (chunks : List Chunk) (e : String) (s : RelaySystem) : Prop :=
  s.source.failure = some e ∧
  s.closeRequested = false ∧
  (s.running = true → s.state = .readable ∧ s.received ++ (s.queue ++ s.source.chunks) = chunks) ∧
  (s.running = false → s.state = .errored e ∧ s.queue = [] ∧ s.pendingRead = false
    ∧ ∃ rest, s.received ++ rest = chunks) ∧
  (s.pendingRead = true → s.queue = [] ∧ s.ending = none) ∧
  (s.ending = none ∨ (s.ending = some (.error e) ∧ s.running = false))

/-- A schedule for concrete runs. -/
def demoSchedule : List Actor := [.relay, .consumer, .consumer, .relay]

/-- An upstream response for concrete runs: event-stream framing, three chunks. -/
def demoStreamResponse : Response :=
  { status := 200, statusText := "OK"
    headers := [("content-type", "text/event-stream")]
    body := some { chunks := [[100, 97], [116, 97], [58]], failure := none } }

/-- An upstream response for concrete runs: a JSON error body and no content
type among the headers. -/
def demoPlainResponse : Response :=
  { status := 404, statusText := "Not Found"
    headers := [("x-request-id", "1")]
    body := some { chunks := [[123], [125]], failure := none } }

/-- An upstream response for concrete runs: a JSON error body. -/
def demoErrorResponse : Response :=
  { status := 404, statusText := "Not Found"
    headers := [("content-type", "application/json")]
    body := some { chunks := [[123], [125]], failure := none } }

/-! ## `errorHandler` -/

/-- What a JavaScript call that should give a string comes back with: a
string, `undefined`, or a thrown error. -/
inductive JsResult where
  | string (s : String)
  | undefined
  | throws (e : String)
  deriving DecidableEq, Repr

/-- A value handed to `errorHandler`, told apart the way the handler does:
`nullish` is `null` or `undefined`; `string` is a primitive string; `error` is
an instance of `Error` with its `message` and its `statusCode`, the latter
`undefined` or a non-negative integer; `errorWithText` is an instance of
`Error` whose `statusCode` is a string; `object` is a value that is no
instance of `Error` and has a `statusCode` property holding a non-negative
integer; `other` is any other value. `object` and `other` are given by what
`JSON.stringify` makes of the value (a string; `undefined` for a function or
a symbol; a thrown `TypeError` for a cyclic structure or a BigInt). -/
inductive StreamError where
  | nullish
  | string (s : String)
  | error (message : String) (statusCode : Option Nat)
  | other (json : JsResult)
  | errorWithText (message : String) (statusCode : String)
  | object (statusCode : Nat) (json : JsResult)
  deriving DecidableEq, Repr

/-- The value carries the status code `n`: as the number or the decimal text
in the `statusCode` of an `Error`, or as the number in the `statusCode` of
another object. -/
def StreamError.carries (n : Nat) : StreamError → Bool
  | .error _ (some m) => m == n
  | .errorWithText _ statusCode => statusCode == toString n
  | .object m _ => m == n
  | _ => false

/-- Source: `provider` in `errorHandler`,
`useOpenAICompatible ? 'OpenAI-compatible endpoint (' + baseUrl + ')' : 'AWS Bedrock'`;
an undefined `baseUrl` prints as `undefined`. -/
def errorHandler.provider (moduleEnv env : Env) : String :=
  match useOpenAICompatible moduleEnv env with
  | some _ =>
    "OpenAI-compatible endpoint ("
      ++ (cleanEnvVar env.OPENAI_COMPATIBLE_BASE_URL).getD "undefined" ++ ")"
  | none => "AWS Bedrock"

/-- Source: `errorHandler(error)`, lines 445-477. A status code below 10^21 is
printed by the template literal in decimal. -/
def errorHandler (moduleEnv env : Env) (error : StreamError) : JsResult :=
  match error with
  | .nullish => .string "unknown error"
  | .string s => .string s
  | .error message statusCode =>
    if statusCode = some 404 then
      .string ("API endpoint not found (404) when calling "
        ++ errorHandler.provider moduleEnv env
        ++ ". Please check your API configuration and ensure the endpoint URL is correct.")
    else
      match statusCode with
      | some n =>
        if n ≠ 0 then .string ("API error (" ++ toString n ++ "): " ++ message)
        else .string message
      | none => .string message
  | .other json => json
  | .errorWithText message statusCode =>
    if statusCode ≠ "" then .string ("API error (" ++ statusCode ++ "): " ++ message)
    else .string message
  | .object _ json => json

/-! ## Logger (`src/lib/logger.ts`) -/

/-- Source: the type `LogLevel`. -/
inductive LogLevel where
  | error
  | warn
  | info
  | debug
  deriving DecidableEq, Repr

/-- The string a `LogLevel` is at run time. -/
def LogLevel.name : LogLevel → String
  | .error => "error"
  | .warn => "warn"
  | .info => "info"
  | .debug => "debug"

/-- Source: `level.toUpperCase()` on the four level names. -/
def LogLevel.upper : LogLevel → String
  | .error => "ERROR"
  | .warn => "WARN"
  | .info => "INFO"
  | .debug => "DEBUG"

/-- Source: `LOG_LEVEL_PRIORITY`, the own properties of the object literal:
the number stored under a key, `none` for a key that is no own property. -/
def LOG_LEVEL_PRIORITY (key : String) : Option Nat :=
  if key = "error" then some 0
  else if key = "warn" then some 1
  else if key = "info" then some 2
  else if key = "debug" then some 3
  else none

/-- The property names an object literal inherits from `Object.prototype`;
each holds a function or an object, not a number. -/
def objectPrototypeKeys : List String :=
  ["constructor", "__defineGetter__", "__defineSetter__", "hasOwnProperty",
   "__lookupGetter__", "__lookupSetter__", "isPrototypeOf", "propertyIsEnumerable",
   "toString", "valueOf", "__proto__", "toLocaleString"]

/-- Source: `envLevel in LOG_LEVEL_PRIORITY`. The `in` operator finds own and
inherited properties. -/
def inLogLevelPriority (key : String) : Bool :=
  (LOG_LEVEL_PRIORITY key).isSome || objectPrototypeKeys.contains key

/-- Source: `toLowerCase()` on the value of `LOG_LEVEL`. Only the letters A to
Z are mapped: on any other character `String.prototype.toLowerCase` gives a
character outside ASCII or a letter no property name above lower-cases from,
so the test `envLevel in LOG_LEVEL_PRIORITY` and the value returned when it
holds are the same. -/
def toLowerCase (s : String) : String :=
  String.mk (s.data.map Char.toLower)

/-- Source: `getConfiguredLogLevel()`, with the value of `process.env.LOG_LEVEL`. -/
def getConfiguredLogLevel (LOG_LEVEL : Option String) : String :=
  match LOG_LEVEL with
  | none => "error"
  | some v =>
    if toLowerCase v != "" && inLogLevelPriority (toLowerCase v) then toLowerCase v
    else "error"

/-- Source: `currentLogLevel`, computed once when the module is loaded. -/
def currentLogLevel (LOG_LEVEL : Option String) : String :=
  getConfiguredLogLevel LOG_LEVEL

/-- Source: `shouldLog(level)`,
`LOG_LEVEL_PRIORITY[level] <= LOG_LEVEL_PRIORITY[currentLogLevel]`. An
inherited property is a function or an object, which `<=` converts to `NaN`:
the comparison is then false. -/
def shouldLog (LOG_LEVEL : Option String) (level : LogLevel) : Bool :=
  match LOG_LEVEL_PRIORITY level.name, LOG_LEVEL_PRIORITY (currentLogLevel LOG_LEVEL) with
  | some a, some b => a ≤ b
  | _, _ => false

/-- Source: `formatMessage(level, message)`, the first element of its result;
`timestamp` is `new Date().toISOString()`. -/
def formatMessage (timestamp : String) (level : LogLevel) (message : String) : String :=
  "[" ++ timestamp ++ "] [" ++ level.upper ++ "] " ++ message

/-- Source: `logger.error(message)`: the line given to `console.error`, `none`
when nothing is written. -/
def logger.error (LOG_LEVEL : Option String) (timestamp message : String) : Option String :=
  if shouldLog LOG_LEVEL .error then some (formatMessage timestamp .error message) else none

/-- Source: `logger.warn(message)`: the line given to `console.warn`, `none`
when nothing is written. -/
def logger.warn (LOG_LEVEL : Option String) (timestamp message : String) : Option String :=
  if shouldLog LOG_LEVEL .warn then some (formatMessage timestamp .warn message) else none

/-- Source: `logger.info(message)`: the line given to `console.log`, `none`
when nothing is written. -/
def logger.info (LOG_LEVEL : Option String) (timestamp message : String) : Option String :=
  if shouldLog LOG_LEVEL .info then some (formatMessage timestamp .info message) else none

/-- Source: `logger.debug(message)`: the line given to `console.log`, `none`
when nothing is written. -/
def logger.debug (LOG_LEVEL : Option String) (timestamp message : String) : Option String :=
  if shouldLog LOG_LEVEL .debug then some (formatMessage timestamp .debug message) else none

/-- The place of a level in the order error, warn, info, debug. -/
def LogLevel.rank : LogLevel → Nat
  | .error => 0
  | .warn => 1
  | .info => 2
  | .debug => 3

/-- The configured level in the words of the specification: `LOG_LEVEL`
lower-cased when that is one of the four level names, `error` otherwise. -/
def specConfiguredLevel (LOG_LEVEL : Option String) : LogLevel :=
  match LOG_LEVEL with
  | none => .error
  | some v =>
    if toLowerCase v = "warn" then .warn
    else if toLowerCase v = "info" then .info
    else if toLowerCase v = "debug" then .debug
    else .error

/-- Quote stripping in the words of the specification: a value of length at
least 2 that both starts and ends with a quote character loses its first and
its last character, any other value is left as it is. -/
def specStripQuotes (t : List Char) : List Char :=
  if 2 ≤ t.length ∧ t.head?.any isQuote = true ∧ t.getLast?.any isQuote = true then
    t.tail.dropLast
  else t

/-! # Theorems -/

/-! ## Configuration check -/

theorem truthy_eq_true_iff (v : Option String) :
    truthy v = true ↔ ∃ s, v = some s ∧ s ≠ "" := by
  cases v <;> simp [truthy]

theorem truthy_eq_false_iff (v : Option String) :
    truthy v = false ↔ v = none ∨ v = some "" := by
  cases v <;> simp [truthy]

theorem POST_effects (P : Platform) (moduleEnv env : Env) (req : Request) :
    (POST P moduleEnv env req).1 = (POST.attempt P moduleEnv env req).1 := by
  unfold POST
  split <;> simp_all

theorem POST_of_invalid (P : Platform) (moduleEnv env : Env) (req : Request) (o : Outcome)
    (hv : validateConfig P env = some o) : POST P moduleEnv env req = ([], o) := by
  simp [POST, POST.attempt, hv]

theorem attempt_effects_of_valid (P : Platform) (moduleEnv env : Env) (req : Request)
    (hv : validateConfig P env = none) :
    (POST.attempt P moduleEnv env req).1 = [Effect.readBody]
    ∨ ∃ call, (POST.attempt P moduleEnv env req).1 = [Effect.readBody, Effect.modelCall call]
        ∧ call.model = selectedModel moduleEnv env
        ∧ call.providerOptions = providerOptions moduleEnv env := by
  unfold POST.attempt
  rw [hv]
  rcases hj : req.json with _ | body
  · exact Or.inl rfl
  · rcases hl : body.messages.getLast? with _ | lastMessage
    · exact Or.inl (by simp only [hl])
    · rcases hc : P.convertToModelMessages body.messages with e | modelMessages
      · exact Or.inl (by simp only [hl, hc])
      · rcases hs : abortSignal moduleEnv env with e | signal
        · exact Or.inl (by simp only [hl, hc, hs])
        · rcases hm : enhancedMessages modelMessages body.xml lastMessage with _ | ⟨first, others⟩
          · exact Or.inl (by simp only [hl, hc, hs, hm])
          · right
            refine ⟨{ model := selectedModel moduleEnv env
                      providerOptions := providerOptions moduleEnv env
                      abortSignal := signal
                      messages := first :: others }, ?_, rfl, rfl⟩
            simp only [hl, hc, hs, hm]
            split
            · rfl
            · split <;> rfl

/-- C4: whenever the cleaned endpoint URL is a non-empty string and the cleaned
credential is undefined or empty, `POST` answers with status 500 and the
API-key message, whatever the model id, the URL parser and the request are, and
it has performed no action: the body was not read and no model call was made. -/
theorem post_missing_credential (P : Platform) (moduleEnv env : Env) (req : Request)
    (hUrl : ∃ u, cleanEnvVar env.OPENAI_COMPATIBLE_BASE_URL = some u ∧ u ≠ "")
    (hKey : cleanEnvVar env.OPENAI_COMPATIBLE_API_KEY = none
      ∨ cleanEnvVar env.OPENAI_COMPATIBLE_API_KEY = some "") :
    POST P moduleEnv env req =
      ([], .json 500
        "OpenAI-compatible API is misconfigured: API key is required when base URL is set") := by
  have h1 := (truthy_eq_true_iff _).2 hUrl
  have h2 := (truthy_eq_false_iff _).2 hKey
  simp [POST, POST.attempt, validateConfig, h1, h2]

theorem post_missing_credential_witness :
    POST demoPlatform demoEnv { demoEnv with OPENAI_COMPATIBLE_API_KEY := some " \"\" " }
        ⟨none⟩ =
      ([], .json 500
        "OpenAI-compatible API is misconfigured: API key is required when base URL is set") :=
  post_missing_credential demoPlatform demoEnv _ ⟨none⟩
    ⟨"https://x.test", by decide, by decide⟩ (Or.inr (by decide))

/-- C5: with the cleaned endpoint `u`, credential and model id all non-empty:
if the URL parser rejects `u` with message `m`, or accepts it with a protocol
other than `http:` and `https:`, `POST` answers with status 500 and the
message "Invalid base URL format - " followed by `m`, respectively by the
scheme check's message, having performed no action; and if the parser accepts
`u` with protocol `http:` or `https:`, the configuration check lets the request through. -/
theorem post_invalid_base_url (P : Platform) (moduleEnv env : Env) (req : Request)
    (u : String) (hUrl : cleanEnvVar env.OPENAI_COMPATIBLE_BASE_URL = some u) (hu : u ≠ "")
    (hKey : ∃ k, cleanEnvVar env.OPENAI_COMPATIBLE_API_KEY = some k ∧ k ≠ "")
    (hModel : ∃ m, cleanEnvVar env.OPENAI_COMPATIBLE_MODEL = some m ∧ m ≠ "") :
    (∀ m, P.parseURL u = .error m →
      POST P moduleEnv env req = ([], .json 500
        ("OpenAI-compatible API is misconfigured: Invalid base URL format - " ++ m)))
    ∧ (∀ r, P.parseURL u = .ok r → r.protocol ≠ "http:" → r.protocol ≠ "https:" →
      POST P moduleEnv env req = ([], .json 500
        ("OpenAI-compatible API is misconfigured: Invalid base URL format - "
          ++ "URL must use HTTP or HTTPS protocol")))
    ∧ (∀ r, P.parseURL u = .ok r → (r.protocol = "http:" ∨ r.protocol = "https:") →
      validateConfig P env = none) := by
  have h1 : truthy (cleanEnvVar env.OPENAI_COMPATIBLE_BASE_URL) = true :=
    (truthy_eq_true_iff _).2 ⟨u, hUrl, hu⟩
  have h2 := (truthy_eq_true_iff _).2 hKey
  have h3 := (truthy_eq_true_iff _).2 hModel
  refine ⟨?_, ?_, ?_⟩
  · intro m hm
    apply POST_of_invalid
    simp only [validateConfig, h1, h2, h3]
    simp [hUrl, hm]
  · intro r hr hp hs
    apply POST_of_invalid
    simp only [validateConfig, h1, h2, h3]
    simp [hUrl, hr, isHttpProtocol, hp, hs]
  · intro r hr hp
    simp only [validateConfig, h1, h2, h3]
    rcases hp with hp | hp <;> simp [hUrl, hr, isHttpProtocol, hp]

theorem post_invalid_base_url_witness :
    (∀ m, demoParseURL "ftp://x.test" = .error m →
      POST demoPlatform demoEnv { demoEnv with OPENAI_COMPATIBLE_BASE_URL := some "ftp://x.test" }
        ⟨none⟩ = ([], .json 500
        ("OpenAI-compatible API is misconfigured: Invalid base URL format - " ++ m)))
    ∧ (∀ r, demoParseURL "ftp://x.test" = .ok r → r.protocol ≠ "http:" →
        r.protocol ≠ "https:" →
      POST demoPlatform demoEnv { demoEnv with OPENAI_COMPATIBLE_BASE_URL := some "ftp://x.test" }
        ⟨none⟩ = ([], .json 500
        ("OpenAI-compatible API is misconfigured: Invalid base URL format - "
          ++ "URL must use HTTP or HTTPS protocol")))
    ∧ (∀ r, demoParseURL "ftp://x.test" = .ok r →
        (r.protocol = "http:" ∨ r.protocol = "https:") →
      validateConfig demoPlatform
        { demoEnv with OPENAI_COMPATIBLE_BASE_URL := some "ftp://x.test" } = none) :=
  post_invalid_base_url demoPlatform demoEnv
    { demoEnv with OPENAI_COMPATIBLE_BASE_URL := some "ftp://x.test" } ⟨none⟩
    "ftp://x.test" (by decide) (by decide) ⟨"k", by decide, by decide⟩
    ⟨"m", by decide, by decide⟩

/-- C6 as stated fails: with the endpoint set and both the credential and the
model id unset, `POST` answers with the API-key message, not with the
model-name message. -/
theorem post_missing_model_counterexample :
    ¬ ∀ (P : Platform) (moduleEnv env : Env) (req : Request),
      (∃ u, cleanEnvVar env.OPENAI_COMPATIBLE_BASE_URL = some u ∧ u ≠ "") →
      (cleanEnvVar env.OPENAI_COMPATIBLE_MODEL = none
        ∨ cleanEnvVar env.OPENAI_COMPATIBLE_MODEL = some "") →
      POST P moduleEnv env req = ([], .json 500
        "OpenAI-compatible API is misconfigured: Model name is required when base URL is set") := by
  intro h
  have h0 := h demoPlatform demoEnv
    { demoEnv with OPENAI_COMPATIBLE_API_KEY := none, OPENAI_COMPATIBLE_MODEL := none } ⟨none⟩
    ⟨"https://x.test", by decide, by decide⟩ (Or.inl (by decide))
  revert h0
  decide

/-- C6, amended: whenever the cleaned endpoint URL and the cleaned credential
are non-empty and the cleaned model id is undefined or empty, `POST` answers
with status 500 and the model-name message, having performed no action. -/
theorem post_missing_model (P : Platform) (moduleEnv env : Env) (req : Request)
    (hUrl : ∃ u, cleanEnvVar env.OPENAI_COMPATIBLE_BASE_URL = some u ∧ u ≠ "")
    (hKey : ∃ k, cleanEnvVar env.OPENAI_COMPATIBLE_API_KEY = some k ∧ k ≠ "")
    (hModel : cleanEnvVar env.OPENAI_COMPATIBLE_MODEL = none
      ∨ cleanEnvVar env.OPENAI_COMPATIBLE_MODEL = some "") :
    POST P moduleEnv env req =
      ([], .json 500
        "OpenAI-compatible API is misconfigured: Model name is required when base URL is set") := by
  have h1 := (truthy_eq_true_iff _).2 hUrl
  have h2 := (truthy_eq_true_iff _).2 hKey
  have h3 := (truthy_eq_false_iff _).2 hModel
  simp [POST, POST.attempt, validateConfig, h1, h2, h3]

theorem post_missing_model_witness :
    POST demoPlatform demoEnv { demoEnv with OPENAI_COMPATIBLE_MODEL := none } ⟨none⟩ =
      ([], .json 500
        "OpenAI-compatible API is misconfigured: Model name is required when base URL is set") :=
  post_missing_model demoPlatform demoEnv _ ⟨none⟩
    ⟨"https://x.test", by decide, by decide⟩ ⟨"k", by decide, by decide⟩ (Or.inl (by decide))

/-- C7: whenever the cleaned endpoint URL is undefined or empty, validation
reports no configuration error, and it does so with the credential and the
model id replaced by any other values; `POST` goes on to read the request body. -/
theorem post_endpoint_absent (P : Platform) (moduleEnv env : Env) (req : Request)
    (hUrl : cleanEnvVar env.OPENAI_COMPATIBLE_BASE_URL = none
      ∨ cleanEnvVar env.OPENAI_COMPATIBLE_BASE_URL = some "") :
    validateConfig P env = none
    ∧ (∀ key model : Option String,
        validateConfig P { env with OPENAI_COMPATIBLE_API_KEY := key,
                                    OPENAI_COMPATIBLE_MODEL := model } = none)
    ∧ (POST P moduleEnv env req).1.head? = some Effect.readBody := by
  have h1 := (truthy_eq_false_iff _).2 hUrl
  have hv : validateConfig P env = none := by simp [validateConfig, h1]
  refine ⟨hv, ?_, ?_⟩
  · intro key model
    simp [validateConfig, h1]
  · rw [POST_effects]
    rcases attempt_effects_of_valid P moduleEnv env req hv with h | ⟨call, h, _⟩ <;> simp [h]

theorem post_endpoint_absent_witness :
    validateConfig demoPlatform
        { demoEnv with OPENAI_COMPATIBLE_BASE_URL := some " \"\" " } = none
    ∧ (∀ key model : Option String,
        validateConfig demoPlatform
          { OPENAI_COMPATIBLE_BASE_URL := some " \"\" "
            OPENAI_COMPATIBLE_API_KEY := key
            OPENAI_COMPATIBLE_MODEL := model
            OPENAI_COMPATIBLE_TIMEOUT := none } = none)
    ∧ (POST demoPlatform demoEnv
        { demoEnv with OPENAI_COMPATIBLE_BASE_URL := some " \"\" " } ⟨none⟩).1.head?
        = some Effect.readBody :=
  post_endpoint_absent demoPlatform demoEnv
    { demoEnv with OPENAI_COMPATIBLE_BASE_URL := some " \"\" " } ⟨none⟩ (Or.inr (by decide))

/-! ## Provider selection -/

/-- C8: with the module-level and the request-time environment equal and the
configuration check passed, an endpoint that is present selects the
OpenAI-compatible chat model built from the cleaned endpoint, credential and
model id, an endpoint that is absent selects the Bedrock model and makes
`providerOptions` carry the fine-grained-tool-streaming flag, and every model
call `POST` makes uses exactly this model and these options. -/
theorem provider_selection (P : Platform) (moduleEnv env : Env)
    (hEnv : moduleEnv = env) (hv : validateConfig P env = none) :
    (truthy (cleanEnvVar env.OPENAI_COMPATIBLE_BASE_URL) = true →
      ∃ u k m, cleanEnvVar env.OPENAI_COMPATIBLE_BASE_URL = some u
        ∧ cleanEnvVar env.OPENAI_COMPATIBLE_API_KEY = some k
        ∧ cleanEnvVar env.OPENAI_COMPATIBLE_MODEL = some m
        ∧ u ≠ "" ∧ k ≠ "" ∧ m ≠ ""
        ∧ selectedModel moduleEnv env = .openaiChat { apiKey := k, baseURL := u } m)
    ∧ (truthy (cleanEnvVar env.OPENAI_COMPATIBLE_BASE_URL) = false →
      selectedModel moduleEnv env = .bedrock "global.anthropic.claude-sonnet-4-5-20250929-v1:0"
        ∧ providerOptions moduleEnv env =
          some { anthropicBeta := some ["fine-grained-tool-streaming-2025-05-14"] })
    ∧ (∀ req call, Effect.modelCall call ∈ (POST P moduleEnv env req).1 →
      call.model = selectedModel moduleEnv env
        ∧ call.providerOptions = providerOptions moduleEnv env) := by
  subst hEnv
  refine ⟨?_, ?_, ?_⟩
  · intro hb
    have hk : truthy (cleanEnvVar moduleEnv.OPENAI_COMPATIBLE_API_KEY) = true := by
      by_contra hk
      simp [validateConfig, hb, hk] at hv
    have hm : truthy (cleanEnvVar moduleEnv.OPENAI_COMPATIBLE_MODEL) = true := by
      by_contra hm
      simp [validateConfig, hb, hk, hm] at hv
    obtain ⟨u, hu, hu0⟩ := (truthy_eq_true_iff _).1 hb
    obtain ⟨k, hk1, hk0⟩ := (truthy_eq_true_iff _).1 hk
    obtain ⟨m, hm1, hm0⟩ := (truthy_eq_true_iff _).1 hm
    refine ⟨u, k, m, hu, hk1, hm1, hu0, hk0, hm0, ?_⟩
    simp [selectedModel, useOpenAICompatible, openaiCompatible, hu, hk1, hm1, hm0, truthy,
      hu0, hk0]
  · intro hb
    simp [selectedModel, providerOptions, useOpenAICompatible, openaiCompatible, hb]
  · intro req call hc
    rw [POST_effects] at hc
    rcases attempt_effects_of_valid P moduleEnv moduleEnv req hv with h | ⟨c, h, h1, h2⟩
    · simp [h] at hc
    · simp [h] at hc
      subst hc
      exact ⟨h1, h2⟩

theorem provider_selection_witness :
    (truthy (cleanEnvVar demoEnv.OPENAI_COMPATIBLE_BASE_URL) = true →
      ∃ u k m, cleanEnvVar demoEnv.OPENAI_COMPATIBLE_BASE_URL = some u
        ∧ cleanEnvVar demoEnv.OPENAI_COMPATIBLE_API_KEY = some k
        ∧ cleanEnvVar demoEnv.OPENAI_COMPATIBLE_MODEL = some m
        ∧ u ≠ "" ∧ k ≠ "" ∧ m ≠ ""
        ∧ selectedModel demoEnv demoEnv = .openaiChat { apiKey := k, baseURL := u } m)
    ∧ (truthy (cleanEnvVar demoEnv.OPENAI_COMPATIBLE_BASE_URL) = false →
      selectedModel demoEnv demoEnv = .bedrock "global.anthropic.claude-sonnet-4-5-20250929-v1:0"
        ∧ providerOptions demoEnv demoEnv =
          some { anthropicBeta := some ["fine-grained-tool-streaming-2025-05-14"] })
    ∧ (∀ req call, Effect.modelCall call ∈ (POST demoPlatform demoEnv demoEnv req).1 →
      call.model = selectedModel demoEnv demoEnv
        ∧ call.providerOptions = providerOptions demoEnv demoEnv) :=
  provider_selection demoPlatform demoEnv demoEnv rfl (by decide)

/-! ## Message transformer -/

theorem enhancedMessages_length (modelMessages : List ModelMessage) (xml : Option String)
    (lastMessage : UIMessage) :
    (enhancedMessages modelMessages xml lastMessage).length = modelMessages.length := by
  unfold enhancedMessages
  rcases h : modelMessages.getLast? with _ | last
  · rfl
  · simp only
    split
    · have hne : modelMessages ≠ [] := by
        intro h0
        rw [h0] at h
        cases h
      simp only [List.length_append, List.length_dropLast, List.length_singleton]
      have := List.length_pos.2 hne
      omega
    · rfl

theorem attempt_effects_of_converted (P : Platform) (moduleEnv env : Env) (req : Request)
    (body : RequestBody) (lastMessage : UIMessage) (modelMessages : List ModelMessage)
    (signal : Option Nat)
    (hv : validateConfig P env = none) (hj : req.json = some body)
    (hl : body.messages.getLast? = some lastMessage)
    (hc : P.convertToModelMessages body.messages = .ok modelMessages)
    (hs : abortSignal moduleEnv env = .ok signal) (hne : modelMessages ≠ []) :
    (POST.attempt P moduleEnv env req).1 =
      [Effect.readBody, Effect.modelCall
        { model := selectedModel moduleEnv env
          providerOptions := providerOptions moduleEnv env
          abortSignal := signal
          messages := enhancedMessages modelMessages body.xml lastMessage }] := by
  unfold POST.attempt
  simp only [hv, hj, hl, hc, hs]
  rcases hm : enhancedMessages modelMessages body.xml lastMessage with _ | ⟨first, others⟩
  · have h := enhancedMessages_length modelMessages body.xml lastMessage
    rw [hm] at h
    exact absurd (List.length_eq_zero.1 h.symm) hne
  · simp only
    split
    · rfl
    · split <;> rfl

theorem attempt_calls_of_converted (P : Platform) (moduleEnv env : Env) (req : Request)
    (body : RequestBody) (lastMessage : UIMessage) (modelMessages : List ModelMessage)
    (hv : validateConfig P env = none) (hj : req.json = some body)
    (hl : body.messages.getLast? = some lastMessage)
    (hc : P.convertToModelMessages body.messages = .ok modelMessages)
    (call : StreamTextCall)
    (hcall : Effect.modelCall call ∈ (POST.attempt P moduleEnv env req).1) :
    call.messages = enhancedMessages modelMessages body.xml lastMessage := by
  unfold POST.attempt at hcall
  simp only [hv, hj, hl, hc] at hcall
  rcases hs : abortSignal moduleEnv env with e | signal
  · simp [hs] at hcall
  · rcases hm : enhancedMessages modelMessages body.xml lastMessage with _ | ⟨first, others⟩
    · simp [hs, hm] at hcall
    · simp only [hs, hm] at hcall
      have hmem : Effect.modelCall call ∈ [Effect.readBody, Effect.modelCall
          { model := selectedModel moduleEnv env
            providerOptions := providerOptions moduleEnv env
            abortSignal := signal
            messages := first :: others }] := by
        revert hcall
        split
        · exact id
        · split <;> exact id
      simp at hmem
      rw [hmem]

theorem enhancedMessages_user (init : List ModelMessage) (last : ModelMessage)
    (xml : Option String) (lastMessage : UIMessage) (hr : last.role = "user") :
    enhancedMessages (init ++ [last]) xml lastMessage =
      init ++ [{ last with content := .parts (contentParts xml lastMessage) }] := by
  simp [enhancedMessages, hr]

theorem isFile_eq : Part.isFile = fun p => decide (p.type = "file") := by
  funext p
  rw [Bool.eq_iff_iff]
  simp [Part.isFile]

theorem isText_eq : Part.isText = fun p => decide (p.type = "text") := by
  funext p
  rw [Bool.eq_iff_iff]
  simp [Part.isText]

/-- C9: when validation has passed, the body holds the messages, the last inbound
message is `lastMessage` and the conversion ends with a message of role
`user`, there is a part sequence of length one plus the number of file parts
of `lastMessage`, made of the text part holding the composite block of the
diagram document (empty if absent) and of the text of the first text part of
`lastMessage` (empty if there is none), then of the image parts, one per file
part in order, each with the url and the media type of its file part, such
that every model call `POST` makes carries as its last message the last
converted message with that sequence as content; and `POST` does make that
call whenever the timeout setting gives a valid abort signal. -/
theorem last_message_content (P : Platform) (moduleEnv env : Env) (req : Request)
    (body : RequestBody) (lastMessage : UIMessage) (init : List ModelMessage)
    (last : ModelMessage)
    (hv : validateConfig P env = none) (hj : req.json = some body)
    (hl : body.messages.getLast? = some lastMessage)
    (hc : P.convertToModelMessages body.messages = .ok (init ++ [last]))
    (hr : last.role = "user") :
    let files := (lastMessage.parts.getD []).filter (fun p => p.type = "file")
    let userText := match (lastMessage.parts.getD []).find? (fun p => p.type = "text") with
      | some p => p.text.getD ""
      | none => ""
    ∃ ps, ps.length = 1 + files.length
      ∧ ps.head? = some (.text (compositeBlock (body.xml.getD "") userText))
      ∧ ps.tail = files.map (fun f => .image f.url f.mediaType)
      ∧ (∀ call, Effect.modelCall call ∈ (POST P moduleEnv env req).1 →
          call.messages = init ++ [{ last with content := .parts ps }])
      ∧ (∀ signal, abortSignal moduleEnv env = .ok signal →
          ∃ call, (POST P moduleEnv env req).1 = [Effect.readBody, Effect.modelCall call]
            ∧ call.abortSignal = signal
            ∧ call.messages = init ++ [{ last with content := .parts ps }]) := by
  intro files userText
  have hu := enhancedMessages_user init last body.xml lastMessage hr
  refine ⟨contentParts body.xml lastMessage, ?_, ?_, ?_, ?_, ?_⟩
  · cases hp : lastMessage.parts <;>
      simp [contentParts, fileParts, files, hp, isFile_eq, Nat.add_comm]
  · cases hp : lastMessage.parts <;>
      simp [contentParts, formattedTextContent, lastMessageText, userText, hp, isText_eq]
  · cases hp : lastMessage.parts <;>
      simp [contentParts, fileParts, files, hp, isFile_eq, imagePart]
  · intro call hcall
    rw [POST_effects] at hcall
    rw [attempt_calls_of_converted P moduleEnv env req body lastMessage _ hv hj hl hc call hcall]
    exact hu
  · intro signal hs
    refine ⟨{ model := selectedModel moduleEnv env
              providerOptions := providerOptions moduleEnv env
              abortSignal := signal
              messages := enhancedMessages (init ++ [last]) body.xml lastMessage },
      ?_, rfl, hu⟩
    rw [POST_effects]
    exact attempt_effects_of_converted P moduleEnv env req body lastMessage _ signal
      hv hj hl hc hs (by simp)

theorem last_message_content_witness :
    ∃ ps, ps.length = 1 + 2
      ∧ ps.head? = some (.text (compositeBlock "<root/>" "rename to New"))
      ∧ ps.tail = [.image (some "data:a") (some "image/png"),
                   .image (some "data:b") (some "image/jpeg")]
      ∧ (∀ call, Effect.modelCall call
            ∈ (POST demoPlatform demoTimeoutEnv demoTimeoutEnv demoRequest).1 →
          call.messages
            = [⟨"assistant", .str "hello", none⟩] ++ [⟨"user", .parts ps, none⟩])
      ∧ (∀ signal, abortSignal demoTimeoutEnv demoTimeoutEnv = .ok signal →
          ∃ call, (POST demoPlatform demoTimeoutEnv demoTimeoutEnv demoRequest).1
              = [Effect.readBody, Effect.modelCall call]
            ∧ call.abortSignal = signal
            ∧ call.messages
              = [⟨"assistant", .str "hello", none⟩] ++ [⟨"user", .parts ps, none⟩]) :=
  last_message_content demoPlatform demoTimeoutEnv demoTimeoutEnv demoRequest
    { messages :=
        [ { role := "assistant", parts := some [⟨"text", some "hello", none, none⟩] },
          { role := "user"
            parts := some [ ⟨"file", none, some "data:a", some "image/png"⟩,
                            ⟨"text", some "rename to New", none, none⟩,
                            ⟨"file", none, some "data:b", some "image/jpeg"⟩ ] } ]
      xml := some "<root/>" }
    { role := "user"
      parts := some [ ⟨"file", none, some "data:a", some "image/png"⟩,
                      ⟨"text", some "rename to New", none, none⟩,
                      ⟨"file", none, some "data:b", some "image/jpeg"⟩ ] }
    [⟨"assistant", .str "hello", none⟩] ⟨"user", .str "rename to New", none⟩
    (by decide) rfl (by decide) (by simp [demoPlatform, Part.isText]) rfl

/-- The two throws between the conversion and the model call, at concrete
inputs: with the OpenAI-compatible provider in use, a timeout setting that
`parseInt` cannot read or that is negative gives the generic 500 response and
no model call, while `30000` gives the abort signal of 30000 milliseconds; and
a conversion that returns the empty list gives the generic 500 response. -/
theorem post_throws_before_call :
    POST demoPlatform demoEnv { demoEnv with OPENAI_COMPATIBLE_TIMEOUT := some "abc" }
        demoRequest = ([Effect.readBody], .json 500 "Internal server error")
    ∧ POST demoPlatform demoEnv { demoEnv with OPENAI_COMPATIBLE_TIMEOUT := some "-5" }
        demoRequest = ([Effect.readBody], .json 500 "Internal server error")
    ∧ abortSignal demoTimeoutEnv demoTimeoutEnv = .ok (some 30000)
    ∧ POST { demoPlatform with convertToModelMessages := fun _ => .ok [] } emptyEnv emptyEnv
        demoRequest = ([Effect.readBody], .json 500 "Internal server error") := by
  refine ⟨by decide, by decide, rfl, by decide⟩

/-! ## Composite text block -/

theorem blockMiddle_data : blockMiddle.data =
    Char.ofNat 10 :: Char.ofNat 34 :: Char.ofNat 34 :: Char.ofNat 34 :: Char.ofNat 10 ::
      "User input:\n\"\"\"md\n".data := by
  decide

theorem includes_fence_append (r : List Char) : includes (fence ++ r) fence = true := by
  simp [includes, startsWith, fence]

theorem includes_append_fence (a r : List Char) :
    includes (a ++ (fence ++ r)) fence = true := by
  induction a with
  | nil => exact includes_fence_append r
  | cons c a ih =>
    rw [List.cons_append, includes, ih]
    simp

theorem block_split_unique (x1 x2 s1 s2 : List Char)
    (h2 : includes x2 fence = false)
    (h : ∃ a, x2 = x1 ++ a ∧ blockMiddle.data ++ s1 = a ++ (blockMiddle.data ++ s2)) :
    x1 = x2 := by
  obtain ⟨a, hx, ha⟩ := h
  rw [blockMiddle_data] at ha
  rcases a with _ | ⟨c1, _ | ⟨c2, _ | ⟨c3, _ | ⟨c4, r⟩⟩⟩⟩
  · simpa using hx.symm
  · simp at ha
  · simp at ha
  · simp at ha
  · simp only [List.cons_append, List.cons.injEq] at ha
    obtain ⟨e1, e2, e3, e4, -⟩ := ha
    subst e1 e2 e3 e4
    have : includes x2 fence = true := by
      rw [hx]
      have := includes_append_fence (x1 ++ [Char.ofNat 10]) r
      simpa [fence] using this
    rw [this] at h2
    cases h2

theorem compositeBlock_data (xml userText : String) :
    (compositeBlock xml userText).data =
      blockHead.data ++ (xml.data ++ (blockMiddle.data ++ (userText.data ++ blockTail.data))) := by
  simp [compositeBlock, String.data_append]

/-- C10 as stated fails: a diagram document that holds the middle label and an
empty user text give the same block as an empty diagram document and a user
text that holds the middle label. -/
theorem composite_block_counterexample :
    ¬ ∀ xml1 text1 xml2 text2 : String,
      compositeBlock xml1 text1 = compositeBlock xml2 text2 → xml1 = xml2 ∧ text1 = text2 := by
  intro h
  have h0 := h blockMiddle "" "" blockMiddle (by decide)
  revert h0
  decide

/-- C10, amended: the block sent to the model is the fixed head, the diagram
document (empty if absent), the fixed middle label, the text of the last
message and the fixed tail, concatenated; and on diagram documents that do not
contain the fence of three double quotes, equal blocks come from equal
diagram documents and equal user texts. -/
theorem composite_block_injective (xml1 text1 xml2 text2 : String)
    (h1 : includes xml1.data fence = false) (h2 : includes xml2.data fence = false)
    (h : compositeBlock xml1 text1 = compositeBlock xml2 text2) :
    (∀ (xml : Option String) (lastMessage : UIMessage),
      formattedTextContent xml lastMessage =
        blockHead ++ xml.getD "" ++ blockMiddle ++ lastMessageText lastMessage ++ blockTail)
    ∧ xml1 = xml2 ∧ text1 = text2 := by
  refine ⟨fun _ _ => rfl, ?_⟩
  have hd := congrArg String.data h
  rw [compositeBlock_data, compositeBlock_data] at hd
  have hd := List.append_cancel_left hd
  have hx : xml1.data = xml2.data := by
    rcases List.append_eq_append_iff.1 hd with ⟨a, hx, ha⟩ | ⟨a, hx, ha⟩
    · exact block_split_unique _ _ _ _ h2 ⟨a, hx, ha⟩
    · exact (block_split_unique _ _ _ _ h1 ⟨a, hx, ha⟩).symm
  rw [hx] at hd
  have ht := List.append_cancel_right (List.append_cancel_left (List.append_cancel_left hd))
  exact ⟨String.ext hx, String.ext ht⟩

theorem composite_block_injective_witness :
    (∀ (xml : Option String) (lastMessage : UIMessage),
      formattedTextContent xml lastMessage =
        blockHead ++ xml.getD "" ++ blockMiddle ++ lastMessageText lastMessage ++ blockTail)
    ∧ "<root/>" = "<root/>" ∧ "rename \"\"\" to New" = "rename \"\"\" to New" :=
  composite_block_injective "<root/>" "rename \"\"\" to New" "<root/>" "rename \"\"\" to New"
    (by decide) (by decide) rfl

/-! ## Instrumented transport: the relay -/

theorem normalInv_init (chunks : List Chunk) :
    NormalInv chunks (RelaySystem.init ⟨chunks, none⟩) := by
  simp [NormalInv, RelaySystem.init]

theorem normalInv_relayStep (chunks : List Chunk) (s : RelaySystem)
    (h : NormalInv chunks s) : NormalInv chunks (relayStep s) := by
  obtain ⟨⟨src, failure⟩, running, cc, queue, cr, st, pr, rcv, en⟩ := s
  simp only [NormalInv] at h
  obtain ⟨h1, h2, h3, h4, h5, h6, h7⟩ := h
  subst h1 h3
  cases running
  · simp_all [NormalInv, relayStep]
  · cases src with
    | nil =>
      cases pr <;> cases queue <;>
        simp_all [NormalInv, relayStep, BodyStream.read, controllerClose]
    | cons c cs =>
      cases pr <;>
        simp_all [NormalInv, relayStep, BodyStream.read, controllerEnqueue]

theorem normalInv_consumerStep (chunks : List Chunk) (s : RelaySystem)
    (h : NormalInv chunks s) : NormalInv chunks (consumerStep s) := by
  obtain ⟨⟨src, failure⟩, running, cc, queue, cr, st, pr, rcv, en⟩ := s
  simp only [NormalInv] at h
  obtain ⟨h1, h2, h3, h4, h5, h6, h7⟩ := h
  subst h1 h3
  cases pr <;> cases en <;> cases running <;> cases queue <;>
    simp_all [NormalInv, consumerStep]
theorem run_append (a b : List Actor) (s : RelaySystem) :
    RelaySystem.run (a ++ b) s = RelaySystem.run b (RelaySystem.run a s) := by
  simp [RelaySystem.run, List.foldl_append]

theorem run_cons (a : Actor) (sched : List Actor) (s : RelaySystem) :
    RelaySystem.run (a :: sched) s = RelaySystem.run sched (s.step a) := rfl

theorem normalInv_run (chunks : List Chunk) (sched : List Actor) (s : RelaySystem)
    (h : NormalInv chunks s) : NormalInv chunks (RelaySystem.run sched s) := by
  induction sched generalizing s with
  | nil => exact h
  | cons a sched ih =>
    rw [run_cons]
    apply ih
    cases a
    · exact normalInv_relayStep chunks s h
    · exact normalInv_consumerStep chunks s h

theorem failInv_init (chunks : List Chunk) (e : String) :
    FailInv chunks e (RelaySystem.init ⟨chunks, some e⟩) := by
  simp [FailInv, RelaySystem.init]

theorem failInv_relayStep (chunks : List Chunk) (e : String) (s : RelaySystem)
    (h : FailInv chunks e s) : FailInv chunks e (relayStep s) := by
  obtain ⟨⟨src, failure⟩, running, cc, queue, cr, st, pr, rcv, en⟩ := s
  simp only [FailInv] at h
  obtain ⟨h1, h2, h3, h4, h5, h6⟩ := h
  subst h1 h2
  cases running
  · simp_all [FailInv, relayStep]
  · cases src with
    | nil =>
      cases pr <;>
        simp_all [FailInv, relayStep, BodyStream.read, controllerError]
      exact ⟨queue, h3.2⟩
    | cons c cs =>
      cases pr <;>
        simp_all [FailInv, relayStep, BodyStream.read, controllerEnqueue]

theorem failInv_consumerStep (chunks : List Chunk) (e : String) (s : RelaySystem)
    (h : FailInv chunks e s) : FailInv chunks e (consumerStep s) := by
  obtain ⟨⟨src, failure⟩, running, cc, queue, cr, st, pr, rcv, en⟩ := s
  simp only [FailInv] at h
  obtain ⟨h1, h2, h3, h4, h5, h6⟩ := h
  subst h1 h2
  cases pr <;> cases en <;> cases running <;> cases queue <;>
    simp_all [FailInv, consumerStep]

theorem failInv_run (chunks : List Chunk) (e : String) (sched : List Actor) (s : RelaySystem)
    (h : FailInv chunks e s) : FailInv chunks e (RelaySystem.run sched s) := by
  induction sched generalizing s with
  | nil => exact h
  | cons a sched ih =>
    rw [run_cons]
    apply ih
    cases a
    · exact failInv_relayStep chunks e s h
    · exact failInv_consumerStep chunks e s h
theorem controllerEnqueue_source (s s1 : RelaySystem) (c : Chunk)
    (h : controllerEnqueue s c = .ok s1) : s1.source = s.source := by
  unfold controllerEnqueue at h
  split_ifs at h <;> simp at h <;> rw [← h]

theorem relayStep_progress (s : RelaySystem) :
    (relayStep s).running = false
    ∨ (relayStep s).source.chunks.length + 1 = s.source.chunks.length := by
  by_cases hr : s.running = false
  · left
    simp [relayStep, hr]
  · have hr1 : s.running = true := by simpa using hr
    rcases hc : s.source.chunks with _ | ⟨c, cs⟩
    · left
      unfold relayStep
      simp only [hr1, BodyStream.read, hc]
      cases s.source.failure
      · simp only [Bool.not_true, Bool.false_eq_true, if_false]
        generalize controllerClose _ = r
        cases r <;> rfl
      · simp
    · unfold relayStep
      simp only [hr1, BodyStream.read, hc, Bool.not_true, Bool.false_eq_true, if_false]
      split
      · next s1 heq =>
        right
        have := controllerEnqueue_source _ _ _ heq
        simp [this]
      · left
        rfl

theorem relayStep_stopped (s : RelaySystem) (h : s.running = false) : relayStep s = s := by
  simp [relayStep, h]

theorem run_relay_stopped (k : Nat) (s : RelaySystem) (h : s.running = false) :
    RelaySystem.run (List.replicate k Actor.relay) s = s := by
  induction k with
  | zero => rfl
  | succ k ih =>
    rw [List.replicate_succ, run_cons]
    simp only [RelaySystem.step]
    rw [relayStep_stopped s h, ih]

theorem relay_finishes (k : Nat) (s : RelaySystem) (h : s.source.chunks.length < k) :
    (RelaySystem.run (List.replicate k Actor.relay) s).running = false := by
  induction k generalizing s with
  | zero => omega
  | succ k ih =>
    rw [List.replicate_succ, run_cons]
    simp only [RelaySystem.step]
    rcases relayStep_progress s with h1 | h1
    · rw [run_relay_stopped k _ h1]
      exact h1
    · exact ih _ (by omega)

theorem consumerStep_finished (s : RelaySystem) (x : Ending) (h : s.ending = some x) :
    consumerStep s = s := by
  simp [consumerStep, h]

theorem run_consumer_finished (k : Nat) (s : RelaySystem) (x : Ending)
    (h : s.ending = some x) :
    RelaySystem.run (List.replicate k Actor.consumer) s = s := by
  induction k with
  | zero => rfl
  | succ k ih =>
    rw [List.replicate_succ, run_cons]
    simp only [RelaySystem.step]
    rw [consumerStep_finished s x h, ih]

theorem consumerStep_drains (chunks : List Chunk) (s : RelaySystem)
    (h : NormalInv chunks s) (hr : s.running = false) :
    (consumerStep s).running = false
    ∧ ((consumerStep s).ending = some .done
      ∨ (consumerStep s).queue.length + 1 = s.queue.length) := by
  obtain ⟨⟨src, failure⟩, running, cc, queue, cr, st, pr, rcv, en⟩ := s
  simp only [NormalInv] at h
  obtain ⟨h1, h2, h3, h4, h5, h6, h7⟩ := h
  subst h1 h3
  cases pr <;> cases en <;> cases running <;> cases queue <;>
    simp_all [consumerStep]

theorem consumer_finishes (chunks : List Chunk) (k : Nat) (s : RelaySystem)
    (h : NormalInv chunks s) (hr : s.running = false) (hq : s.queue.length < k) :
    (RelaySystem.run (List.replicate k Actor.consumer) s).ending = some .done := by
  induction k generalizing s with
  | zero => omega
  | succ k ih =>
    rw [List.replicate_succ, run_cons]
    simp only [RelaySystem.step]
    obtain ⟨h1, h2 | h2⟩ := consumerStep_drains chunks s h hr
    · rw [run_consumer_finished k _ _ h2]
      exact h2
    · exact ih _ (normalInv_consumerStep chunks s h) h1 (by omega)

theorem normalInv_done (chunks : List Chunk) (s : RelaySystem) (h : NormalInv chunks s)
    (hd : s.ending = some .done) : s.received = chunks := by
  obtain ⟨h1, h2, h3, h4, h5, h6, h7⟩ := h
  rcases h7 with h7 | ⟨_, h8, h9⟩
  · rw [h7] at hd
    cases hd
  · rw [← h2, h9, h5 h8]
    simp

theorem normalInv_length (chunks : List Chunk) (s : RelaySystem) (h : NormalInv chunks s) :
    s.source.chunks.length ≤ chunks.length ∧ s.queue.length ≤ chunks.length := by
  obtain ⟨h1, h2, _⟩ := h
  rw [← h2]
  simp only [List.length_append]
  omega

theorem consumerStep_failed (chunks : List Chunk) (e : String) (s : RelaySystem)
    (h : FailInv chunks e s) (hr : s.running = false) :
    (consumerStep s).ending = some (.error e) := by
  obtain ⟨⟨src, failure⟩, running, cc, queue, cr, st, pr, rcv, en⟩ := s
  simp only [FailInv] at h
  obtain ⟨h1, h2, h3, h4, h5, h6⟩ := h
  subst h1 h2
  cases pr <;> cases en <;> cases running <;> cases queue <;>
    simp_all [consumerStep]

theorem failInv_length (chunks : List Chunk) (e : String) (s : RelaySystem)
    (h : FailInv chunks e s) (hr : s.running = true) :
    s.source.chunks.length ≤ chunks.length := by
  obtain ⟨h1, h2, h3, h4, h5, h6⟩ := h
  rw [← (h3 hr).2]
  simp only [List.length_append]
  omega

theorem keepUp_delivers (e : String) (cs : List Chunk) (s : RelaySystem)
    (h1 : s.source = ⟨cs, some e⟩) (h2 : s.running = true) (h3 : s.state = .readable)
    (h4 : s.closeRequested = false) (h5 : s.queue = []) (h6 : s.ending = none) :
    (RelaySystem.run (keepUp (cs.length + 1)) s).received = s.received ++ cs
    ∧ (RelaySystem.run (keepUp (cs.length + 1)) s).ending = some (.error e) := by
  induction cs generalizing s with
  | nil =>
    obtain ⟨⟨src, failure⟩, running, cc, queue, cr, st, pr, rcv, en⟩ := s
    simp only [BodyStream.mk.injEq] at h1
    obtain ⟨rfl, rfl⟩ := h1
    simp only at h2 h3 h4 h5 h6
    subst h2 h3 h4 h5 h6
    cases pr <;>
      simp [keepUp, run_cons, RelaySystem.step, RelaySystem.run, consumerStep, relayStep,
        BodyStream.read, controllerError]
  | cons c cs ih =>
    obtain ⟨⟨src, failure⟩, running, cc, queue, cr, st, pr, rcv, en⟩ := s
    simp only [BodyStream.mk.injEq] at h1
    obtain ⟨rfl, rfl⟩ := h1
    simp only at h2 h3 h4 h5 h6
    subst h2 h3 h4 h5 h6
    rw [List.length_cons, keepUp, run_cons, run_cons]
    have hstep : relayStep (consumerStep
        { source := ⟨c :: cs, some e⟩, running := true, chunkCount := cc, queue := [],
          closeRequested := false, state := .readable, pendingRead := pr, received := rcv,
          ending := none }) =
        { source := ⟨cs, some e⟩, running := true, chunkCount := cc + 1, queue := [],
          closeRequested := false, state := .readable, pendingRead := false,
          received := rcv ++ [c], ending := none } := by
      cases pr <;> simp [consumerStep, relayStep, BodyStream.read, controllerEnqueue]
    simp only [RelaySystem.step]
    rw [hstep]
    have := ih ⟨⟨cs, some e⟩, true, cc + 1, [], false, .readable, false, rcv ++ [c], none⟩
      rfl rfl rfl rfl rfl rfl
    simpa using this

/-! ## Instrumented transport: UTF-8 -/

theorem char_scalar (c : Char) :
    c.toNat < 55296 ∨ (57343 < c.toNat ∧ c.toNat < 1114112) := by
  have h := c.valid
  simpa [UInt32.isValidChar, Nat.isValidChar, Char.toNat] using h

theorem utf8Step_start (b : Nat) : utf8Step Utf8Decoder.start b = utf8Lead b := by
  simp [utf8Step, Utf8Decoder.start]

theorem utf8Step_last (d : Utf8Decoder) (b : Nat) (hn : d.bytesNeeded ≠ 0)
    (hl : d.lower ≤ b) (hu : b ≤ d.upper) (hs : d.bytesSeen + 1 = d.bytesNeeded) :
    utf8Step d b = (Utf8Decoder.start, [Char.ofNat (d.codePoint * 64 + b % 64)]) := by
  unfold utf8Step
  rw [if_neg hn, if_neg (by omega), if_pos hs]

theorem utf8Step_more (d : Utf8Decoder) (b : Nat) (hn : d.bytesNeeded ≠ 0)
    (hl : d.lower ≤ b) (hu : b ≤ d.upper) (hs : d.bytesSeen + 1 ≠ d.bytesNeeded) :
    utf8Step d b =
      ({ codePoint := d.codePoint * 64 + b % 64, bytesSeen := d.bytesSeen + 1,
         bytesNeeded := d.bytesNeeded, lower := 128, upper := 191 }, []) := by
  unfold utf8Step
  rw [if_neg hn, if_neg (by omega), if_neg hs]

theorem utf8Run_encodeChar (c : Char) (rest : List Nat) :
    utf8Run Utf8Decoder.start (utf8EncodeChar c ++ rest) =
      c :: utf8Run Utf8Decoder.start rest := by
  have hc := char_scalar c
  have hof : ∀ n, n = c.toNat → Char.ofNat n = c := by
    intro n hn
    rw [hn, Char.ofNat_toNat]
  unfold utf8EncodeChar
  simp only
  split_ifs with h1 h2 h3
  · simp only [List.singleton_append, utf8Run, utf8Step_start]
    have : utf8Lead c.toNat = (Utf8Decoder.start, [Char.ofNat c.toNat]) := by
      unfold utf8Lead
      rw [if_pos (by omega)]
    rw [this]
    simp
  · simp only [List.cons_append, List.nil_append, utf8Run, utf8Step_start]
    have hl : utf8Lead (192 + c.toNat / 64) =
        ({ Utf8Decoder.start with bytesNeeded := 1, codePoint := (192 + c.toNat / 64) % 32 }, []) := by
      unfold utf8Lead
      rw [if_neg (by omega), if_pos (by omega)]
    rw [hl]
    simp only [List.nil_append]
    rw [utf8Step_last _ _ (by simp) (by simp [Utf8Decoder.start]) (by simp [Utf8Decoder.start]; omega)
      (by simp [Utf8Decoder.start])]
    simp only [List.singleton_append, List.cons.injEq, and_true]
    refine ⟨hof _ ?_, rfl⟩
    omega
  · simp only [List.cons_append, List.nil_append, utf8Run, utf8Step_start]
    have hl : utf8Lead (224 + c.toNat / 4096) =
        ({ codePoint := (224 + c.toNat / 4096) % 16, bytesSeen := 0, bytesNeeded := 2,
           lower := if 224 + c.toNat / 4096 = 224 then 160 else 128,
           upper := if 224 + c.toNat / 4096 = 237 then 159 else 191 }, []) := by
      unfold utf8Lead
      rw [if_neg (by omega), if_neg (by omega), if_pos (by omega)]
    rw [hl]
    simp only [List.nil_append]
    rw [utf8Step_more _ _ (by simp) (by dsimp only; split_ifs <;> omega)
      (by dsimp only; split_ifs <;> omega) (by simp)]
    simp only [List.nil_append]
    rw [utf8Step_last _ _ (by simp) (by dsimp only; omega) (by dsimp only; omega) (by simp)]
    simp only [List.singleton_append, List.cons.injEq, and_true]
    refine ⟨hof _ ?_, rfl⟩
    omega
  · simp only [List.cons_append, List.nil_append, utf8Run, utf8Step_start]
    have hl : utf8Lead (240 + c.toNat / 262144) =
        ({ codePoint := (240 + c.toNat / 262144) % 8, bytesSeen := 0, bytesNeeded := 3,
           lower := if 240 + c.toNat / 262144 = 240 then 144 else 128,
           upper := if 240 + c.toNat / 262144 = 244 then 143 else 191 }, []) := by
      unfold utf8Lead
      rw [if_neg (by omega), if_neg (by omega), if_neg (by omega), if_pos (by omega)]
    rw [hl]
    simp only [List.nil_append]
    rw [utf8Step_more _ _ (by simp) (by dsimp only; split_ifs <;> omega)
      (by dsimp only; split_ifs <;> omega) (by simp)]
    simp only [List.nil_append]
    rw [utf8Step_more _ _ (by simp) (by dsimp only; omega) (by dsimp only; omega) (by simp)]
    simp only [List.nil_append]
    rw [utf8Step_last _ _ (by simp) (by dsimp only; omega) (by dsimp only; omega) (by simp)]
    simp only [List.singleton_append, List.cons.injEq, and_true]
    refine ⟨hof _ ?_, rfl⟩
    omega

theorem utf8Run_encode (s : List Char) : utf8Run Utf8Decoder.start (utf8Encode s) = s := by
  induction s with
  | nil => simp [utf8Encode, utf8Run, Utf8Decoder.start]
  | cons c s ih => rw [utf8Encode, utf8Run_encodeChar, ih]

theorem utf8Decode_eq_run (bytes : List Nat)
    (h : ∀ rest, bytes ≠ 239 :: 187 :: 191 :: rest) :
    utf8Decode bytes = utf8Run Utf8Decoder.start bytes := by
  unfold utf8Decode
  split
  · exact absurd rfl (h _)
  · rfl

theorem utf8Decode_encode (s : List Char) (h : s.head? ≠ some (Char.ofNat 65279)) :
    utf8Decode (utf8Encode s) = s := by
  rw [utf8Decode_eq_run, utf8Run_encode]
  intro rest hr
  cases s with
  | nil => simp [utf8Encode] at hr
  | cons c s =>
    apply h
    have hc := char_scalar c
    simp only [List.head?_cons, Option.some.injEq]
    rw [← Char.ofNat_toNat c]
    congr 1
    simp only [utf8Encode, utf8EncodeChar] at hr
    split_ifs at hr <;> simp at hr <;> omega

/-! ## Instrumented transport: the claims -/

theorem fetch_streaming (r : Response) (b : BodyStream)
    (hok : r.ok = true) (hs : isStreaming r = true) (hb : r.body = some b)
    (hi : responseInitError r.status r.statusText = none) :
    openaiCompatible.fetch (.ok r) =
      .ok { status := r.status, statusText := r.statusText, headers := r.headers,
            body := .relay b } := by
  simp [openaiCompatible.fetch, hok, hs, hb, newStreamResponse, hi]

/-- C1: for an upstream response with a success status, classified streaming,
whose body delivers the chunks `chunks` and then ends, the wrapper returns a
response whose body is the relay over that body; in every run of the relay and
its consumer the chunks received, the chunks queued and the chunks still
upstream make up `chunks` in order, close is requested only when nothing is
left upstream, the consumer sees `done` only after it has received all of
`chunks` and never sees an error; and once the relay and then the consumer
have each taken `chunks.length + 1` further steps the consumer has received
exactly `chunks` and has seen `done`. -/
theorem relay_normal_completion (r : Response) (chunks : List Chunk) (sched : List Actor)
    (hok : r.ok = true) (hs : isStreaming r = true)
    (hb : r.body = some { chunks := chunks, failure := none })
    (hi : responseInitError r.status r.statusText = none) :
    openaiCompatible.fetch (.ok r) =
      .ok { status := r.status, statusText := r.statusText, headers := r.headers,
            body := .relay { chunks := chunks, failure := none } }
    ∧ (RelaySystem.run sched (RelaySystem.init ⟨chunks, none⟩)).received
        ++ ((RelaySystem.run sched (RelaySystem.init ⟨chunks, none⟩)).queue
          ++ (RelaySystem.run sched (RelaySystem.init ⟨chunks, none⟩)).source.chunks) = chunks
    ∧ ((RelaySystem.run sched (RelaySystem.init ⟨chunks, none⟩)).closeRequested = true →
        (RelaySystem.run sched (RelaySystem.init ⟨chunks, none⟩)).source.chunks = [])
    ∧ ((RelaySystem.run sched (RelaySystem.init ⟨chunks, none⟩)).ending = some .done →
        (RelaySystem.run sched (RelaySystem.init ⟨chunks, none⟩)).received = chunks)
    ∧ (∀ e, (RelaySystem.run sched (RelaySystem.init ⟨chunks, none⟩)).ending
        ≠ some (.error e))
    ∧ (RelaySystem.run
        (sched ++ (List.replicate (chunks.length + 1) Actor.relay
          ++ List.replicate (chunks.length + 1) Actor.consumer))
        (RelaySystem.init ⟨chunks, none⟩)).received = chunks
    ∧ (RelaySystem.run
        (sched ++ (List.replicate (chunks.length + 1) Actor.relay
          ++ List.replicate (chunks.length + 1) Actor.consumer))
        (RelaySystem.init ⟨chunks, none⟩)).ending = some .done := by
  have hinv := normalInv_run chunks sched _ (normalInv_init chunks)
  have hlen := normalInv_length chunks _ hinv
  have hinv2 := normalInv_run chunks (List.replicate (chunks.length + 1) Actor.relay) _ hinv
  have hstop := relay_finishes (chunks.length + 1) _ (Nat.lt_succ_of_le hlen.1)
  have hlen2 := normalInv_length chunks _ hinv2
  have hdone := consumer_finishes chunks (chunks.length + 1) _ hinv2 hstop
    (Nat.lt_succ_of_le hlen2.2)
  have hinv3 := normalInv_run chunks (List.replicate (chunks.length + 1) Actor.consumer) _ hinv2
  refine ⟨fetch_streaming r _ hok hs hb hi, hinv.2.1, ?_, normalInv_done chunks _ hinv, ?_, ?_, ?_⟩
  · intro hc
    obtain ⟨_, _, h3, _, h5, _⟩ := hinv
    apply h5
    rw [hc] at h3
    simpa using h3.symm
  · intro e he
    obtain ⟨_, _, _, _, _, _, h7⟩ := hinv
    rw [he] at h7
    simp at h7
  · rw [run_append, run_append]
    exact normalInv_done chunks _ hinv3 hdone
  · rw [run_append, run_append]
    exact hdone

theorem relay_normal_completion_witness :
    openaiCompatible.fetch (.ok demoStreamResponse) =
      .ok { status := 200, statusText := "OK"
            headers := [("content-type", "text/event-stream")]
            body := .relay { chunks := [[100, 97], [116, 97], [58]], failure := none } }
    ∧ (RelaySystem.run demoSchedule (RelaySystem.init ⟨[[100, 97], [116, 97], [58]], none⟩)).received
        ++ ((RelaySystem.run demoSchedule
              (RelaySystem.init ⟨[[100, 97], [116, 97], [58]], none⟩)).queue
          ++ (RelaySystem.run demoSchedule
              (RelaySystem.init ⟨[[100, 97], [116, 97], [58]], none⟩)).source.chunks)
        = [[100, 97], [116, 97], [58]]
    ∧ ((RelaySystem.run demoSchedule
          (RelaySystem.init ⟨[[100, 97], [116, 97], [58]], none⟩)).closeRequested = true →
        (RelaySystem.run demoSchedule
          (RelaySystem.init ⟨[[100, 97], [116, 97], [58]], none⟩)).source.chunks = [])
    ∧ ((RelaySystem.run demoSchedule
          (RelaySystem.init ⟨[[100, 97], [116, 97], [58]], none⟩)).ending = some .done →
        (RelaySystem.run demoSchedule
          (RelaySystem.init ⟨[[100, 97], [116, 97], [58]], none⟩)).received
          = [[100, 97], [116, 97], [58]])
    ∧ (∀ e, (RelaySystem.run demoSchedule
          (RelaySystem.init ⟨[[100, 97], [116, 97], [58]], none⟩)).ending ≠ some (.error e))
    ∧ (RelaySystem.run
        (demoSchedule ++ (List.replicate 4 Actor.relay ++ List.replicate 4 Actor.consumer))
        (RelaySystem.init ⟨[[100, 97], [116, 97], [58]], none⟩)).received
        = [[100, 97], [116, 97], [58]]
    ∧ (RelaySystem.run
        (demoSchedule ++ (List.replicate 4 Actor.relay ++ List.replicate 4 Actor.consumer))
        (RelaySystem.init ⟨[[100, 97], [116, 97], [58]], none⟩)).ending = some .done :=
  relay_normal_completion demoStreamResponse [[100, 97], [116, 97], [58]] demoSchedule
    (by decide) (by decide) rfl (by decide)

/-- C2 as stated fails: when the relay has queued a chunk and then reads the
upstream failure before the consumer has read, `controller.error` discards the
queue and the consumer sees the error with no chunk received. -/
theorem relay_upstream_failure_counterexample :
    ¬ ∀ (chunks : List Chunk) (e : String) (sched : List Actor),
      (RelaySystem.run sched (RelaySystem.init ⟨chunks, some e⟩)).ending = some (.error e) →
      (RelaySystem.run sched (RelaySystem.init ⟨chunks, some e⟩)).received = chunks := by
  intro h
  have h0 := h [[100]] "reset" [Actor.relay, Actor.relay, Actor.consumer] (by decide)
  revert h0
  decide

/-- C2, amended: for an upstream body that delivers the chunks `chunks` and
then fails with `e`, in every run of the relay and its consumer the chunks
received are an initial part of `chunks`, close is never requested and the
only ending the consumer can see is the error `e`; once the relay has taken
`chunks.length + 1` further steps and the consumer one more, the consumer has
seen the error `e`; and when the consumer asks for each chunk before the relay
reads it, it receives all of `chunks` and then the error `e`. -/
theorem relay_upstream_failure (chunks : List Chunk) (e : String) (sched : List Actor) :
    (∃ rest, (RelaySystem.run sched (RelaySystem.init ⟨chunks, some e⟩)).received ++ rest
        = chunks)
    ∧ (RelaySystem.run sched (RelaySystem.init ⟨chunks, some e⟩)).closeRequested = false
    ∧ (∀ x, (RelaySystem.run sched (RelaySystem.init ⟨chunks, some e⟩)).ending = some x →
        x = .error e)
    ∧ (RelaySystem.run
        (sched ++ (List.replicate (chunks.length + 1) Actor.relay ++ [Actor.consumer]))
        (RelaySystem.init ⟨chunks, some e⟩)).ending = some (.error e)
    ∧ (RelaySystem.run (keepUp (chunks.length + 1))
        (RelaySystem.init ⟨chunks, some e⟩)).received = chunks
    ∧ (RelaySystem.run (keepUp (chunks.length + 1))
        (RelaySystem.init ⟨chunks, some e⟩)).ending = some (.error e) := by
  have hinv := failInv_run chunks e sched _ (failInv_init chunks e)
  have hinv2 := failInv_run chunks e (List.replicate (chunks.length + 1) Actor.relay) _ hinv
  have hstop : (RelaySystem.run (List.replicate (chunks.length + 1) Actor.relay)
      (RelaySystem.run sched (RelaySystem.init ⟨chunks, some e⟩))).running = false := by
    cases hr : (RelaySystem.run sched (RelaySystem.init ⟨chunks, some e⟩)).running
    · rw [run_relay_stopped _ _ hr]
      exact hr
    · exact relay_finishes _ _ (Nat.lt_succ_of_le (failInv_length chunks e _ hinv hr))
  have hk := keepUp_delivers e chunks (RelaySystem.init ⟨chunks, some e⟩) rfl rfl rfl rfl rfl rfl
  refine ⟨?_, hinv.2.1, ?_, ?_, ?_, hk.2⟩
  · obtain ⟨_, _, h3, h4, _, _⟩ := hinv
    cases hr : (RelaySystem.run sched (RelaySystem.init ⟨chunks, some e⟩)).running
    · exact (h4 hr).2.2.2
    · exact ⟨_, (h3 hr).2⟩
  · intro x hx
    obtain ⟨_, _, _, _, _, h6⟩ := hinv
    rcases h6 with h6 | ⟨h6, _⟩
    · rw [h6] at hx
      cases hx
    · rw [h6] at hx
      exact (Option.some.inj hx).symm
  · rw [run_append, run_append]
    exact consumerStep_failed chunks e _ hinv2 hstop
  · simpa [RelaySystem.init] using hk.1

theorem responseInitError_none (status : Nat) (statusText : String)
    (h1 : 200 ≤ status ∧ status ≤ 599) (h2 : isReasonPhrase statusText = true)
    (h3 : isNullBodyStatus status = false) : responseInitError status statusText = none := by
  unfold responseInitError
  rw [if_neg (by omega), h2, h3]
  simp

theorem responseInitError_null (status : Nat) (statusText : String)
    (h3 : isNullBodyStatus status = true) :
    ∃ e, responseInitError status statusText = some e := by
  unfold responseInitError
  split_ifs <;> simp

/-- C3 as stated fails, on the headers and on the body. An upstream response
without a content type comes back with `content-type: text/plain;charset=UTF-8`
added, and an upstream body that is not valid UTF-8 (the single byte 255)
comes back as the encoding of U+FFFD. -/
theorem buffered_transparency_counterexample :
    (¬ ∀ (r : Response) (bytes : List Nat),
      (WrappedBody.upstream r.body false).bytes = some bytes →
      (r.ok = false ∨ (r.ok = true ∧ isStreaming r = false)) →
      ∃ w, openaiCompatible.fetch (.ok r) = .ok w ∧ w.headers = r.headers)
    ∧ (¬ ∀ (r : Response) (bytes : List Nat),
      (WrappedBody.upstream r.body false).bytes = some bytes →
      (r.ok = false ∨ (r.ok = true ∧ isStreaming r = false)) →
      ∃ w, openaiCompatible.fetch (.ok r) = .ok w ∧ w.body.bytes = some bytes) := by
  constructor
  · intro h
    obtain ⟨w, hw, hh⟩ := h { demoErrorResponse with headers := [] } [123, 125]
      (by decide) (Or.inl (by decide))
    have : w = { status := 404, statusText := "Not Found",
                 headers := [("content-type", "text/plain;charset=UTF-8")],
                 body := .text (String.mk [Char.ofNat 123, Char.ofNat 125]) } := by
      have h2 : openaiCompatible.fetch (.ok { demoErrorResponse with headers := [] }) =
          .ok { status := 404, statusText := "Not Found",
                headers := [("content-type", "text/plain;charset=UTF-8")],
                body := .text (String.mk [Char.ofNat 123, Char.ofNat 125]) } := by rfl
      rw [h2] at hw
      exact (Except.ok.inj hw).symm
    subst this
    revert hh
    decide
  · intro h
    obtain ⟨w, hw, hh⟩ := h { demoErrorResponse with body := some ⟨[[255]], none⟩ } [255]
      (by decide) (Or.inl (by decide))
    have : w = { status := 404, statusText := "Not Found",
                 headers := [("content-type", "application/json")],
                 body := .text (String.mk [Char.ofNat 65533]) } := by
      have h2 : openaiCompatible.fetch
          (.ok { demoErrorResponse with body := some ⟨[[255]], none⟩ }) =
          .ok { status := 404, statusText := "Not Found",
                headers := [("content-type", "application/json")],
                body := .text (String.mk [Char.ofNat 65533]) } := by rfl
      rw [h2] at hw
      exact (Except.ok.inj hw).symm
    subst this
    revert hh
    decide

theorem nameLt_irrefl (a : List Char) : nameLt a a = false := by
  induction a with
  | nil => rfl
  | cons c a ih => simp [nameLt, ih]

theorem nameLt_trans (a b c : List Char) (h1 : nameLt a b = true) (h2 : nameLt b c = true) :
    nameLt a c = true := by
  induction a generalizing b c with
  | nil =>
    cases b with
    | nil => simp [nameLt] at h1
    | cons y b =>
      cases c with
      | nil => simp [nameLt] at h2
      | cons z c => rfl
  | cons x a ih =>
    cases b with
    | nil => simp [nameLt] at h1
    | cons y b =>
      cases c with
      | nil => simp [nameLt] at h2
      | cons z c =>
        simp only [nameLt, Bool.or_eq_true, decide_eq_true_eq, Bool.and_eq_true,
          beq_iff_eq] at h1 h2 ⊢
        rcases h1 with h1 | ⟨h1, h1'⟩
        · rcases h2 with h2 | ⟨h2, _⟩
          · exact Or.inl (by omega)
          · exact Or.inl (by omega)
        · rcases h2 with h2 | ⟨h2, h2'⟩
          · exact Or.inl (by omega)
          · exact Or.inr ⟨by omega, ih b c h1' h2'⟩

theorem nameLt_asymm (a b : List Char) (h : nameLt a b = true) : nameLt b a = false := by
  cases hba : nameLt b a
  · rfl
  · have := nameLt_trans a b a h hba
    rw [nameLt_irrefl] at this
    cases this

theorem insertHeader_perm (h : String × String) (l : List (String × String)) :
    (insertHeader h l).Perm (h :: l) := by
  induction l with
  | nil => exact List.Perm.refl _
  | cons k rest ih =>
    unfold insertHeader
    split
    · exact List.Perm.refl _
    · exact (List.Perm.cons k ih).trans (List.Perm.swap h k rest)

theorem insertHeader_sorted (h : String × String) (l : List (String × String))
    (hs : headersSorted l) : headersSorted (insertHeader h l) := by
  induction l with
  | nil => simp [insertHeader, headersSorted]
  | cons k rest ih =>
    unfold headersSorted at hs
    rw [List.pairwise_cons] at hs
    obtain ⟨hk, hrest⟩ := hs
    unfold insertHeader
    split
    · next hlt =>
      unfold headersSorted
      rw [List.pairwise_cons, List.pairwise_cons]
      refine ⟨?_, hk, hrest⟩
      intro x hx
      rcases List.mem_cons.1 hx with rfl | hx
      · exact nameLt_asymm _ _ hlt
      · cases hxh : nameLt x.1.data h.1.data
        · rfl
        · have := nameLt_trans _ _ _ hxh hlt
          rw [hk x hx] at this
          cases this
    · next hlt =>
      unfold headersSorted
      rw [List.pairwise_cons]
      refine ⟨?_, ih hrest⟩
      intro x hx
      have hx2 := (insertHeader_perm h rest).mem_iff.1 hx
      rcases List.mem_cons.1 hx2 with rfl | hx2
      · simpa using hlt
      · exact hk x hx2

/-- C3, amended: for an upstream response with a status from 200 to 599, a
status text that is a reason phrase and a null body when the status is a null
body status, whose body is null or delivers without error the UTF-8 encoding of a
string `s` that does not start with a byte order mark, and that has a
non-success status or is classified non-streaming, the wrapper returns a
response with the same status, the same status text and a body of the same
bytes; its headers are the upstream headers when these hold a content type or
the status is a null body status, and otherwise the upstream headers with
`content-type: text/plain;charset=UTF-8` added at its place in name order: a
rearrangement of the upstream entries and the new one that is again in the
order of the `Headers` iterator. -/
theorem buffered_transparency (r : Response) (s : List Char)
    (hstatus : 200 ≤ r.status ∧ r.status ≤ 599)
    (hphrase : isReasonPhrase r.statusText = true)
    (hnull : isNullBodyStatus r.status = true → r.body = none)
    (hsorted : headersSorted r.headers)
    (hbody : (r.body = none ∧ s = [])
      ∨ ∃ chunks, r.body = some { chunks := chunks, failure := none }
          ∧ concatChunks chunks = utf8Encode s)
    (hbom : s.head? ≠ some (Char.ofNat 65279))
    (hcond : r.ok = false ∨ (r.ok = true ∧ isStreaming r = false)) :
    ∃ w, openaiCompatible.fetch (.ok r) = .ok w
      ∧ w.status = r.status ∧ w.statusText = r.statusText
      ∧ w.body.bytes = some (utf8Encode s)
      ∧ (WrappedBody.upstream r.body false).bytes = some (utf8Encode s)
      ∧ w.headers =
          (if (headersGet r.headers "content-type").isSome || isNullBodyStatus r.status
          then r.headers
          else insertHeader ("content-type", "text/plain;charset=UTF-8") r.headers)
      ∧ headersSorted w.headers
      ∧ (insertHeader ("content-type", "text/plain;charset=UTF-8") r.headers).Perm
          (("content-type", "text/plain;charset=UTF-8") :: r.headers) := by
  have hup : (WrappedBody.upstream r.body false).bytes = some (utf8Encode s) := by
    rcases hbody with ⟨hb, hs⟩ | ⟨chunks, hb, hs⟩
    · simp [hb, hs, WrappedBody.bytes, utf8Encode]
    · simp [hb, hs, WrappedBody.bytes]
  have htext : r.text false = .ok (String.mk s) := by
    rcases hbody with ⟨hb, hs⟩ | ⟨chunks, hb, hs⟩
    · simp [Response.text, hb, hs]
    · simp [Response.text, hb, hs, utf8Decode_encode s hbom]
  cases hn : isNullBodyStatus r.status
  · have hi := responseInitError_none r.status r.statusText hstatus hphrase hn
    have hre : ∀ used, r.body = none ∨ used = false →
        rebuild r used = some
          { status := r.status, statusText := r.statusText
            headers :=
              match headersGet r.headers "content-type" with
              | some _ => r.headers
              | none => insertHeader ("content-type", "text/plain;charset=UTF-8") r.headers
            body := .text (String.mk s) } := by
      intro used hu
      have ht : r.text used = .ok (String.mk s) := by
        rcases hu with hu | hu
        · rw [← htext]
          simp [Response.text, hu]
        · rw [hu, htext]
      simp [rebuild, ht, newTextResponse, hi]
    have hfetch : openaiCompatible.fetch (.ok r) = .ok
          { status := r.status, statusText := r.statusText
            headers :=
              match headersGet r.headers "content-type" with
              | some _ => r.headers
              | none => insertHeader ("content-type", "text/plain;charset=UTF-8") r.headers
            body := .text (String.mk s) } := by
      rcases hcond with hok | ⟨hok, hns⟩
      · simp [openaiCompatible.fetch, hok, hre false (Or.inr rfl)]
      · simp [openaiCompatible.fetch, hok, hns, hre false (Or.inr rfl)]
    refine ⟨_, hfetch, rfl, rfl, ?_, hup, ?_, ?_, insertHeader_perm _ _⟩
    · simp [WrappedBody.bytes]
    · cases headersGet r.headers "content-type" <;> simp [hn]
    · cases headersGet r.headers "content-type"
      · exact insertHeader_sorted _ _ hsorted
      · exact hsorted
  · have hb := hnull hn
    obtain ⟨e, he⟩ := responseInitError_null r.status r.statusText hn
    have hre : ∀ used, rebuild r used = none := by
      intro used
      simp [rebuild, Response.text, hb, newTextResponse, he]
    have hs : utf8Encode s = [] := by
      rcases hbody with ⟨_, hs⟩ | ⟨chunks, hb2, _⟩
      · simp [hs, utf8Encode]
      · rw [hb] at hb2
        cases hb2
    refine ⟨{ status := r.status, statusText := r.statusText, headers := r.headers,
              body := .upstream none false }, ?_, rfl, rfl, ?_, hup, ?_, hsorted,
      insertHeader_perm _ _⟩
    · by_cases hst : isStreaming r = true
      · simp [openaiCompatible.fetch, hre, hst, hb]
      · simp [openaiCompatible.fetch, hre, hst, hb]
    · simp [WrappedBody.bytes, hs]
    · simp

theorem buffered_transparency_witness :
    ∃ w, openaiCompatible.fetch (.ok demoPlainResponse) = .ok w
      ∧ w.status = 404 ∧ w.statusText = "Not Found"
      ∧ w.body.bytes = some (utf8Encode [Char.ofNat 123, Char.ofNat 125])
      ∧ (WrappedBody.upstream demoPlainResponse.body false).bytes
          = some (utf8Encode [Char.ofNat 123, Char.ofNat 125])
      ∧ w.headers =
          (if (headersGet demoPlainResponse.headers "content-type").isSome
              || isNullBodyStatus 404
          then demoPlainResponse.headers
          else insertHeader ("content-type", "text/plain;charset=UTF-8")
            demoPlainResponse.headers)
      ∧ headersSorted w.headers
      ∧ (insertHeader ("content-type", "text/plain;charset=UTF-8")
            demoPlainResponse.headers).Perm
          (("content-type", "text/plain;charset=UTF-8") :: demoPlainResponse.headers) :=
  buffered_transparency demoPlainResponse [Char.ofNat 123, Char.ofNat 125]
    (by decide) (by decide) (by decide) (by simp [headersSorted, demoPlainResponse])
    (Or.inr ⟨[[123], [125]], rfl, by decide⟩) (by decide) (Or.inl (by decide))

/-- The headers of the rebuilt response at concrete inputs: the added content
type stands before `x-request-id` and after `cache-control`. -/
theorem rebuilt_headers_examples :
    (openaiCompatible.fetch (.ok demoPlainResponse)).toOption.map WrappedResponse.headers
      = some [("content-type", "text/plain;charset=UTF-8"), ("x-request-id", "1")]
    ∧ insertHeader ("content-type", "text/plain;charset=UTF-8")
        [("cache-control", "no-store"), ("x-request-id", "1")]
      = [("cache-control", "no-store"), ("content-type", "text/plain;charset=UTF-8"),
         ("x-request-id", "1")] := by
  decide

/-! ## Message transformer: frame -/

theorem enhancedMessages_dropLast (modelMessages : List ModelMessage) (xml : Option String)
    (lastMessage : UIMessage) :
    (enhancedMessages modelMessages xml lastMessage).dropLast = modelMessages.dropLast := by
  unfold enhancedMessages
  rcases h : modelMessages.getLast? with _ | last
  · rfl
  · simp only
    split
    · simp
    · rfl

theorem enhancedMessages_last (modelMessages : List ModelMessage) (xml : Option String)
    (lastMessage : UIMessage) (m : ModelMessage) (h : modelMessages.getLast? = some m) :
    ∃ m', (enhancedMessages modelMessages xml lastMessage).getLast? = some m'
      ∧ m'.role = m.role ∧ m'.rest = m.rest := by
  unfold enhancedMessages
  simp only [h]
  split
  · exact ⟨{ m with content := .parts (contentParts xml lastMessage) }, by simp, rfl, rfl⟩
  · exact ⟨m, h, rfl, rfl⟩

theorem enhancedMessages_not_user (modelMessages : List ModelMessage) (xml : Option String)
    (lastMessage : UIMessage)
    (h : ∀ m, modelMessages.getLast? = some m → m.role ≠ "user") :
    enhancedMessages modelMessages xml lastMessage = modelMessages := by
  unfold enhancedMessages
  rcases hl : modelMessages.getLast? with _ | last
  · rfl
  · simp only
    rw [if_neg]
    simpa using h last hl

/-- C11: when validation has passed, the body holds the messages and their
conversion succeeds with `modelMessages`, every model call `POST` makes
carries a list that has the length of `modelMessages`, agrees with it on every
message but the last, whose last message has the role and the other fields of
the last converted message, and that is `modelMessages` itself when the last
converted message does not have role `user`; and `POST` does make that call
whenever `modelMessages` is not empty and the timeout setting gives a valid
abort signal. -/
theorem transformer_frame (P : Platform) (moduleEnv env : Env) (req : Request)
    (body : RequestBody) (lastMessage : UIMessage) (modelMessages : List ModelMessage)
    (hv : validateConfig P env = none) (hj : req.json = some body)
    (hl : body.messages.getLast? = some lastMessage)
    (hc : P.convertToModelMessages body.messages = .ok modelMessages) :
    (∀ call, Effect.modelCall call ∈ (POST P moduleEnv env req).1 →
      call.messages.length = modelMessages.length
      ∧ call.messages.dropLast = modelMessages.dropLast
      ∧ (∀ m, modelMessages.getLast? = some m →
          ∃ m', call.messages.getLast? = some m' ∧ m'.role = m.role ∧ m'.rest = m.rest)
      ∧ ((∀ m, modelMessages.getLast? = some m → m.role ≠ "user") →
          call.messages = modelMessages))
    ∧ (∀ signal, abortSignal moduleEnv env = .ok signal → modelMessages ≠ [] →
      ∃ call, (POST P moduleEnv env req).1 = [Effect.readBody, Effect.modelCall call]) := by
  constructor
  · intro call hcall
    rw [POST_effects] at hcall
    rw [attempt_calls_of_converted P moduleEnv env req body lastMessage _ hv hj hl hc call hcall]
    exact ⟨enhancedMessages_length _ _ _, enhancedMessages_dropLast _ _ _,
      fun m hm => enhancedMessages_last _ _ _ m hm, enhancedMessages_not_user _ _ _⟩
  · intro signal hs hne
    refine ⟨{ model := selectedModel moduleEnv env
              providerOptions := providerOptions moduleEnv env
              abortSignal := signal
              messages := enhancedMessages modelMessages body.xml lastMessage }, ?_⟩
    rw [POST_effects]
    exact attempt_effects_of_converted P moduleEnv env req body lastMessage _ signal
      hv hj hl hc hs hne

theorem transformer_frame_witness :
    (∀ call, Effect.modelCall call
        ∈ (POST demoPlatform demoTimeoutEnv demoTimeoutEnv demoRequest).1 →
      call.messages.length = demoConverted.length
      ∧ call.messages.dropLast = demoConverted.dropLast
      ∧ (∀ m, demoConverted.getLast? = some m →
          ∃ m', call.messages.getLast? = some m' ∧ m'.role = m.role ∧ m'.rest = m.rest)
      ∧ ((∀ m, demoConverted.getLast? = some m → m.role ≠ "user") →
          call.messages = demoConverted))
    ∧ (∀ signal, abortSignal demoTimeoutEnv demoTimeoutEnv = .ok signal →
        demoConverted ≠ [] →
      ∃ call, (POST demoPlatform demoTimeoutEnv demoTimeoutEnv demoRequest).1
        = [Effect.readBody, Effect.modelCall call]) :=
  transformer_frame demoPlatform demoTimeoutEnv demoTimeoutEnv demoRequest
    { messages :=
        [ { role := "assistant", parts := some [⟨"text", some "hello", none, none⟩] },
          { role := "user"
            parts := some [ ⟨"file", none, some "data:a", some "image/png"⟩,
                            ⟨"text", some "rename to New", none, none⟩,
                            ⟨"file", none, some "data:b", some "image/jpeg"⟩ ] } ]
      xml := some "<root/>" }
    { role := "user"
      parts := some [ ⟨"file", none, some "data:a", some "image/png"⟩,
                      ⟨"text", some "rename to New", none, none⟩,
                      ⟨"file", none, some "data:b", some "image/jpeg"⟩ ] }
    demoConverted
    (by decide) rfl (by decide) (by simp [demoPlatform, Part.isText, demoConverted])

/-! ## `errorHandler` -/

theorem startsWith_append (sub r : List Char) : startsWith (sub ++ r) sub = true := by
  induction sub with
  | nil => cases r <;> rfl
  | cons c sub ih => simp [startsWith, ih]

theorem includes_append (a sub r : List Char) : includes (a ++ (sub ++ r)) sub = true := by
  induction a with
  | nil =>
    rw [List.nil_append]
    rcases h : sub ++ r with _ | ⟨c, rest⟩
    · have hs : sub = [] := (List.append_eq_nil.1 h).1
      subst hs
      rfl
    · rw [includes, ← h, startsWith_append]
      rfl
  | cons c a ih =>
    rw [List.cons_append, includes, ih]
    simp

theorem includes_mid (a sub r : String) : includes (a ++ sub ++ r).data sub.data = true := by
  simp only [String.data_append, List.append_assoc]
  exact includes_append _ _ _

theorem useOpenAICompatible_baseURL (env : Env) (p : OpenAIProvider) (m : String)
    (h : useOpenAICompatible env env = some (p, m)) :
    cleanEnvVar env.OPENAI_COMPATIBLE_BASE_URL = some p.baseURL ∧ p.baseURL ≠ "" := by
  unfold useOpenAICompatible openaiCompatible at h
  rcases hb : cleanEnvVar env.OPENAI_COMPATIBLE_BASE_URL with _ | u
  · simp [hb, truthy] at h
  · by_cases hu : u = ""
    · simp [hb, truthy, hu] at h
    · rcases hk : cleanEnvVar env.OPENAI_COMPATIBLE_API_KEY with _ | k
      · simp [hb, hk, truthy] at h
      · by_cases hk0 : k = ""
        · simp [hb, hk, truthy, hk0] at h
        · rcases hm : cleanEnvVar env.OPENAI_COMPATIBLE_MODEL with _ | m'
          · simp [hb, hk, hm, truthy, hu, hk0] at h
          · by_cases hm0 : m' = ""
            · simp [hb, hk, hm, truthy, hu, hk0, hm0] at h
            · simp [hb, hk, hm, truthy, hu, hk0, hm0] at h
              obtain ⟨rfl, _⟩ := h
              exact ⟨rfl, hu⟩

theorem errorHandler_404 (moduleEnv env : Env) (message : String) :
    errorHandler moduleEnv env (.error message (some 404)) =
      .string ("API endpoint not found (404) when calling "
        ++ errorHandler.provider moduleEnv env
        ++ ". Please check your API configuration and ensure the endpoint URL is correct.") := by
  simp [errorHandler]

theorem notFound_includes_literal (provider tail : String) :
    includes ("API endpoint not found (404) when calling " ++ provider ++ tail).data
      "API endpoint not found (404)".data = true := by
  have h : ("API endpoint not found (404) when calling " ++ provider ++ tail).data =
      [] ++ ("API endpoint not found (404)".data
        ++ (" when calling ".data ++ (provider.data ++ tail.data))) := by
    simp only [String.data_append, List.nil_append, List.append_assoc]
    rfl
  rw [h]
  exact includes_append _ _ _

theorem notFound_includes_provider (head a b c tail : String) :
    includes (head ++ (a ++ b ++ c) ++ tail).data b.data = true := by
  have h : (head ++ (a ++ b ++ c) ++ tail).data =
      (head.data ++ a.data) ++ (b.data ++ (c.data ++ tail.data)) := by
    simp only [String.data_append, List.append_assoc]
  rw [h]
  exact includes_append _ _ _

/-- C12 as stated fails. A status code 404 on a value that is no instance of
`Error`, here the object with the single property `statusCode: 404`, is not
looked at: the handler returns the `JSON.stringify` text. And with the
provider built at module load from an endpoint that the environment no longer
holds at request time, the string names `undefined`, not that endpoint. -/
theorem error_handler_not_found_counterexample :
    (¬ ∀ (moduleEnv env : Env) (error : StreamError), error.carries 404 = true →
      ∃ s, errorHandler moduleEnv env error = .string s
        ∧ includes s.data "API endpoint not found (404)".data = true)
    ∧ (¬ ∀ (moduleEnv env : Env) (message : String) (p : OpenAIProvider) (m : String),
      useOpenAICompatible moduleEnv env = some (p, m) →
      ∃ s, errorHandler moduleEnv env (.error message (some 404)) = .string s
        ∧ includes s.data p.baseURL.data = true) := by
  constructor
  · intro h
    obtain ⟨s, hs, hi⟩ := h emptyEnv emptyEnv
      (.object 404 (.string "\x7b\"statusCode\":404\x7d")) (by decide)
    have : s = "\x7b\"statusCode\":404\x7d" := by
      have h2 : errorHandler emptyEnv emptyEnv
          (.object 404 (.string "\x7b\"statusCode\":404\x7d"))
          = .string "\x7b\"statusCode\":404\x7d" := rfl
      rw [h2] at hs
      exact (JsResult.string.inj hs).symm
    subst this
    revert hi
    decide
  · intro h
    obtain ⟨s, hs, hi⟩ := h demoEnv { demoEnv with OPENAI_COMPATIBLE_BASE_URL := none }
      "Not Found" { apiKey := "k", baseURL := "https://x.test" } "m" (by decide)
    have : s = "API endpoint not found (404) when calling OpenAI-compatible endpoint (undefined). Please check your API configuration and ensure the endpoint URL is correct." := by
      have h2 : errorHandler demoEnv { demoEnv with OPENAI_COMPATIBLE_BASE_URL := none }
          (.error "Not Found" (some 404))
          = .string "API endpoint not found (404) when calling OpenAI-compatible endpoint (undefined). Please check your API configuration and ensure the endpoint URL is correct." := by
        decide
      rw [h2] at hs
      exact (JsResult.string.inj hs).symm
    subst this
    revert hi
    decide

/-- C12, amended: for an instance of `Error` whose `statusCode` is the number
404: when the OpenAI-compatible provider is in use, `errorHandler` returns a
string that contains "API endpoint not found (404)" and the cleaned endpoint
URL read from the environment at request time, which is the endpoint the
provider was built with when the module-level and the request-time
environment are equal; when the provider is not in use, the string contains
"API endpoint not found (404)" and "AWS Bedrock". -/
theorem error_handler_not_found (moduleEnv env : Env) (message : String) :
    (∀ p m, useOpenAICompatible moduleEnv env = some (p, m) →
      ∃ s, errorHandler moduleEnv env (.error message (some 404)) = .string s
        ∧ includes s.data "API endpoint not found (404)".data = true
        ∧ (∀ u, cleanEnvVar env.OPENAI_COMPATIBLE_BASE_URL = some u →
            includes s.data u.data = true)
        ∧ (moduleEnv = env →
            cleanEnvVar env.OPENAI_COMPATIBLE_BASE_URL = some p.baseURL
            ∧ includes s.data p.baseURL.data = true))
    ∧ (useOpenAICompatible moduleEnv env = none →
      ∃ s, errorHandler moduleEnv env (.error message (some 404)) = .string s
        ∧ includes s.data "API endpoint not found (404)".data = true
        ∧ includes s.data "AWS Bedrock".data = true) := by
  constructor
  · intro p m h
    have hu : ∀ u, cleanEnvVar env.OPENAI_COMPATIBLE_BASE_URL = some u →
        includes ("API endpoint not found (404) when calling "
          ++ errorHandler.provider moduleEnv env
          ++ ". Please check your API configuration and ensure the endpoint URL is correct.").data
          u.data = true := by
      intro u hb
      have hp : errorHandler.provider moduleEnv env =
          "OpenAI-compatible endpoint (" ++ u ++ ")" := by
        simp [errorHandler.provider, h, hb]
      rw [hp]
      exact notFound_includes_provider _ _ _ _ _
    refine ⟨_, errorHandler_404 moduleEnv env message,
      notFound_includes_literal _ _, hu, ?_⟩
    intro hEnv
    subst hEnv
    have hb := (useOpenAICompatible_baseURL moduleEnv p m h).1
    exact ⟨hb, hu _ hb⟩
  · intro h
    refine ⟨_, errorHandler_404 moduleEnv env message,
      notFound_includes_literal _ _, ?_⟩
    have hp : errorHandler.provider moduleEnv env = "" ++ "AWS Bedrock" ++ "" := by
      simp [errorHandler.provider, h]
    rw [hp]
    exact notFound_includes_provider _ _ _ _ _

/-- The handler at concrete inputs: with the endpoint `https://x.test` in use
and with no endpoint, and a status code 404 held as a string. -/
theorem error_handler_examples :
    errorHandler demoEnv demoEnv (.error "Not Found" (some 404))
      = .string "API endpoint not found (404) when calling OpenAI-compatible endpoint (https://x.test). Please check your API configuration and ensure the endpoint URL is correct."
    ∧ errorHandler emptyEnv emptyEnv (.error "Not Found" (some 404))
      = .string "API endpoint not found (404) when calling AWS Bedrock. Please check your API configuration and ensure the endpoint URL is correct."
    ∧ errorHandler emptyEnv emptyEnv (.errorWithText "Not Found" "404")
      = .string "API error (404): Not Found" := by
  decide

theorem apiError_includes_code (n : Nat) (message : String) :
    includes ("API error (" ++ toString n ++ "): " ++ message).data (toString n).data
      = true := by
  have h : ("API error (" ++ toString n ++ "): " ++ message).data =
      "API error (".data ++ ((toString n).data ++ ("): ".data ++ message.data)) := by
    simp only [String.data_append, List.append_assoc]
  rw [h]
  exact includes_append _ _ _

theorem notFound_includes_code (provider tail : String) :
    includes ("API endpoint not found (404) when calling " ++ provider ++ tail).data
      (toString 404).data = true := by
  have h : ("API endpoint not found (404) when calling " ++ provider ++ tail).data =
      "API endpoint not found (".data ++ ((toString 404).data
        ++ (") when calling ".data ++ (provider.data ++ tail.data))) := by
    simp only [String.data_append, List.append_assoc]
    rfl
  rw [h]
  exact includes_append _ _ _

/-- C13 as stated fails. An `Error` whose `statusCode` is 0 is rendered as its
message alone, and a value that `JSON.stringify` turns into `undefined` (a
function) or rejects (a cyclic structure) does not come back as a string. -/
theorem error_handler_render_counterexample :
    (¬ ∀ (moduleEnv env : Env) (message : String) (n : Nat),
      ∃ s, errorHandler moduleEnv env (.error message (some n)) = .string s
        ∧ includes s.data (toString n).data = true)
    ∧ (¬ ∀ (moduleEnv env : Env) (error : StreamError),
      ∃ s, errorHandler moduleEnv env error = .string s) := by
  constructor
  · intro h
    obtain ⟨s, hs, hi⟩ := h emptyEnv emptyEnv "boom" 0
    have : s = "boom" := by
      have h2 : errorHandler emptyEnv emptyEnv (.error "boom" (some 0)) = .string "boom" := by
        decide
      rw [h2] at hs
      exact (JsResult.string.inj hs).symm
    subst this
    revert hi
    decide
  · intro h
    obtain ⟨s, hs⟩ := h emptyEnv emptyEnv (.other .undefined)
    simp [errorHandler] at hs

/-- C13, amended: for an `Error` that carries a status code other than 0 (and
below 10^21), `errorHandler` returns a string that contains the code in
decimal; `null` and `undefined` give "unknown error"; a string error gives
itself; an `Error` without a status code, or with status code 0, gives its
message; any other value gives its `JSON.stringify` text when that is a
string. -/
theorem error_handler_render (moduleEnv env : Env) (message : String) (n : Nat)
    (hn : n ≠ 0) (_hbound : n < 10 ^ 21) :
    (∃ s, errorHandler moduleEnv env (.error message (some n)) = .string s
      ∧ includes s.data (toString n).data = true)
    ∧ errorHandler moduleEnv env .nullish = .string "unknown error"
    ∧ (∀ s, errorHandler moduleEnv env (.string s) = .string s)
    ∧ errorHandler moduleEnv env (.error message none) = .string message
    ∧ errorHandler moduleEnv env (.error message (some 0)) = .string message
    ∧ (∀ json, errorHandler moduleEnv env (.other (.string json)) = .string json) := by
  refine ⟨?_, rfl, fun _ => rfl, rfl, ?_, fun _ => rfl⟩
  · by_cases h4 : n = 404
    · subst h4
      exact ⟨_, errorHandler_404 moduleEnv env message, notFound_includes_code _ _⟩
    · refine ⟨"API error (" ++ toString n ++ "): " ++ message, ?_,
        apiError_includes_code n message⟩
      simp [errorHandler, h4, hn]
  · simp [errorHandler]

theorem error_handler_render_witness :
    (∃ s, errorHandler demoEnv demoEnv (.error "boom" (some 500)) = .string s
      ∧ includes s.data (toString 500).data = true)
    ∧ errorHandler demoEnv demoEnv .nullish = .string "unknown error"
    ∧ (∀ s, errorHandler demoEnv demoEnv (.string s) = .string s)
    ∧ errorHandler demoEnv demoEnv (.error "boom" none) = .string "boom"
    ∧ errorHandler demoEnv demoEnv (.error "boom" (some 0)) = .string "boom"
    ∧ (∀ json, errorHandler demoEnv demoEnv (.other (.string json)) = .string json) :=
  error_handler_render demoEnv demoEnv "boom" 500 (by decide) (by decide)

/-! ## Top-level `catch` -/

theorem POST_of_error (P : Platform) (moduleEnv env : Env) (req : Request) (e : String)
    (h : (POST.attempt P moduleEnv env req).2 = .error e) :
    (POST P moduleEnv env req).2 = .json 500 "Internal server error" := by
  unfold POST
  split
  · next effects out heq =>
    rw [heq] at h
    cases h
  · rfl

theorem POST_stream_or_generic (P : Platform) (moduleEnv env : Env) (req : Request)
    (hv : validateConfig P env = none) :
    (POST P moduleEnv env req).2 = .json 500 "Internal server error"
    ∨ ∃ call, (POST P moduleEnv env req).2 = .stream call := by
  rcases h : (POST.attempt P moduleEnv env req).2 with e | out
  · exact Or.inl (POST_of_error P moduleEnv env req e h)
  · right
    have h2 : (POST P moduleEnv env req).2 = out := by
      unfold POST
      split
      · next effects out2 heq =>
        rw [heq] at h
        exact (Except.ok.inj h)
      · next effects e heq =>
        rw [heq] at h
        cases h
    rw [h2]
    unfold POST.attempt at h
    simp only [hv] at h
    repeat' split at h
    all_goals first
      | exact ⟨_, (Except.ok.inj h).symm⟩
      | cases h

/-- C14: once validation has passed, every exception that escapes the `try`
block of `POST` gives status 500 with the error text "Internal server error",
whatever its message, so that any two such exceptions give the same response;
this is what a request whose body is not JSON, an empty `messages` list and a
failing conversion give; and the response is either that one or the stream of
the model call. -/
theorem post_generic_error (P : Platform) (moduleEnv env : Env) (req : Request)
    (hv : validateConfig P env = none) :
    (∀ e, (POST.attempt P moduleEnv env req).2 = .error e →
      (POST P moduleEnv env req).2 = .json 500 "Internal server error")
    ∧ (∀ (P2 : Platform) (moduleEnv2 env2 : Env) (req2 : Request) (e1 e2 : String),
      (POST.attempt P moduleEnv env req).2 = .error e1 →
      (POST.attempt P2 moduleEnv2 env2 req2).2 = .error e2 →
      (POST P moduleEnv env req).2 = (POST P2 moduleEnv2 env2 req2).2)
    ∧ (req.json = none →
      POST P moduleEnv env req = ([Effect.readBody], .json 500 "Internal server error"))
    ∧ (∀ body, req.json = some body → body.messages = [] →
      POST P moduleEnv env req = ([Effect.readBody], .json 500 "Internal server error"))
    ∧ (∀ body lastMessage e, req.json = some body →
      body.messages.getLast? = some lastMessage →
      P.convertToModelMessages body.messages = .error e →
      POST P moduleEnv env req = ([Effect.readBody], .json 500 "Internal server error"))
    ∧ ((POST P moduleEnv env req).2 = .json 500 "Internal server error"
      ∨ ∃ call, (POST P moduleEnv env req).2 = .stream call) := by
  refine ⟨fun e h => POST_of_error P moduleEnv env req e h, ?_, ?_, ?_, ?_,
    POST_stream_or_generic P moduleEnv env req hv⟩
  · intro P2 moduleEnv2 env2 req2 e1 e2 h1 h2
    rw [POST_of_error _ _ _ _ e1 h1, POST_of_error _ _ _ _ e2 h2]
  · intro hj
    simp [POST, POST.attempt, hv, hj]
  · intro body hj hm
    simp [POST, POST.attempt, hv, hj, hm]
  · intro body lastMessage e hj hl hc
    simp [POST, POST.attempt, hv, hj, hl, hc]

theorem post_generic_error_witness :
    (∀ e, (POST.attempt demoPlatform emptyEnv emptyEnv ⟨none⟩).2 = .error e →
      (POST demoPlatform emptyEnv emptyEnv ⟨none⟩).2 = .json 500 "Internal server error")
    ∧ (∀ (P2 : Platform) (moduleEnv2 env2 : Env) (req2 : Request) (e1 e2 : String),
      (POST.attempt demoPlatform emptyEnv emptyEnv ⟨none⟩).2 = .error e1 →
      (POST.attempt P2 moduleEnv2 env2 req2).2 = .error e2 →
      (POST demoPlatform emptyEnv emptyEnv ⟨none⟩).2 = (POST P2 moduleEnv2 env2 req2).2)
    ∧ ((⟨none⟩ : Request).json = none →
      POST demoPlatform emptyEnv emptyEnv ⟨none⟩
        = ([Effect.readBody], .json 500 "Internal server error"))
    ∧ (∀ body, (⟨none⟩ : Request).json = some body → body.messages = [] →
      POST demoPlatform emptyEnv emptyEnv ⟨none⟩
        = ([Effect.readBody], .json 500 "Internal server error"))
    ∧ (∀ body lastMessage e, (⟨none⟩ : Request).json = some body →
      body.messages.getLast? = some lastMessage →
      demoPlatform.convertToModelMessages body.messages = .error e →
      POST demoPlatform emptyEnv emptyEnv ⟨none⟩
        = ([Effect.readBody], .json 500 "Internal server error"))
    ∧ ((POST demoPlatform emptyEnv emptyEnv ⟨none⟩).2 = .json 500 "Internal server error"
      ∨ ∃ call, (POST demoPlatform emptyEnv emptyEnv ⟨none⟩).2 = .stream call) :=
  post_generic_error demoPlatform emptyEnv emptyEnv ⟨none⟩ (by decide)

/-! ## `cleanEnvVar` -/

theorem stripQuotes_both (q1 q2 : Char) (mid : List Char)
    (h1 : isQuote q1 = true) (h2 : isQuote q2 = true) :
    stripQuotes (q1 :: (mid ++ [q2])) = mid := by
  simp [stripQuotes, h1, h2]

theorem stripQuotes_leading (q : Char) (rest : List Char)
    (h1 : isQuote q = true) (h2 : rest.getLast?.any isQuote = false) :
    stripQuotes (q :: rest) = rest := by
  simp only [stripQuotes, h1, if_true]
  rcases h : rest.getLast? with _ | c
  · rfl
  · rw [h] at h2
    simp only [Option.any_some] at h2
    simp [h2]

theorem stripQuotes_trailing (q : Char) (init : List Char)
    (h1 : init.head?.any isQuote = false) (h2 : isQuote q = true) :
    stripQuotes (init ++ [q]) = init := by
  cases init with
  | nil => simp [stripQuotes, h2]
  | cons c r =>
    simp only [List.head?_cons, Option.any_some] at h1
    have hs : (match c :: r ++ [q] with
        | c_1 :: rest => if isQuote c_1 = true then rest else c :: r ++ [q]
        | [] => []) = (c :: r) ++ [q] := by
      simp [h1]
    unfold stripQuotes
    simp only [hs, List.getLast?_concat, h2, if_true, List.dropLast_concat]

theorem stripQuotes_neither (t : List Char)
    (h1 : t.head?.any isQuote = false) (h2 : t.getLast?.any isQuote = false) :
    stripQuotes t = t := by
  cases t with
  | nil => rfl
  | cons c r =>
    simp only [List.head?_cons, Option.any_some] at h1
    simp only [stripQuotes, h1]
    rcases h : (c :: r).getLast? with _ | l
    · simp at h
    · rw [h] at h2
      simp only [Option.any_some] at h2
      simp [h, h2]

/-- C15 as stated fails: a value that starts with a quote character and does
not end with one loses the leading quote, it is not left unchanged. -/
theorem clean_env_var_counterexample :
    ¬ ∀ v : String,
      cleanEnvVar (some v) = some (String.mk (specStripQuotes (jsTrim v.data))) := by
  intro h
  have h0 := h " \"abc "
  revert h0
  decide

/-- C15, amended: `cleanEnvVar` of an undefined value is undefined, and for a
string `v` with trimmed value `t`: when `t` starts and ends with a quote
character, in two different positions, the result is `t` without its first and
last character; when `t` starts with a quote character and what follows does
not end with one, the result is `t` without its first character; when `t`
ends with a quote character and does not start with one, the result is `t`
without its last character; when `t` neither starts nor ends with a quote
character, the result is `t`. -/
theorem clean_env_var_strips (v : String) :
    cleanEnvVar none = none
    ∧ (∀ q1 q2 mid, jsTrim v.data = q1 :: (mid ++ [q2]) → isQuote q1 = true →
        isQuote q2 = true → cleanEnvVar (some v) = some (String.mk mid))
    ∧ (∀ q rest, jsTrim v.data = q :: rest → isQuote q = true →
        rest.getLast?.any isQuote = false → cleanEnvVar (some v) = some (String.mk rest))
    ∧ (∀ q init, jsTrim v.data = init ++ [q] → init.head?.any isQuote = false →
        isQuote q = true → cleanEnvVar (some v) = some (String.mk init))
    ∧ ((jsTrim v.data).head?.any isQuote = false →
        (jsTrim v.data).getLast?.any isQuote = false →
        cleanEnvVar (some v) = some (String.mk (jsTrim v.data))) := by
  refine ⟨rfl, ?_, ?_, ?_, ?_⟩
  · intro q1 q2 mid ht h1 h2
    simp [cleanEnvVar, ht, stripQuotes_both q1 q2 mid h1 h2]
  · intro q rest ht h1 h2
    simp [cleanEnvVar, ht, stripQuotes_leading q rest h1 h2]
  · intro q init ht h1 h2
    simp [cleanEnvVar, ht, stripQuotes_trailing q init h1 h2]
  · intro h1 h2
    simp [cleanEnvVar, stripQuotes_neither _ h1 h2]

theorem clean_env_var_examples :
    cleanEnvVar (some " \"\"x\"\" ") = some "\"x\""
    ∧ cleanEnvVar (some "\"abc") = some "abc"
    ∧ cleanEnvVar (some "\"") = some ""
    ∧ cleanEnvVar (some "  k  ") = some "k" := by
  decide

/-! ## Backpressure -/

theorem relayStep_held (s : RelaySystem) :
    (relayStep s).received.length + (relayStep s).queue.length
        + (relayStep s).source.chunks.length
      ≤ s.received.length + s.queue.length + s.source.chunks.length := by
  obtain ⟨⟨src, failure⟩, running, cc, queue, cr, st, pr, rcv, en⟩ := s
  cases running
  · simp [relayStep]
  · cases src with
    | nil =>
      cases failure <;> cases cr <;> cases pr <;> cases queue <;> cases st <;>
        simp [relayStep, BodyStream.read, controllerClose, controllerError]
    | cons c cs =>
      cases cr <;> cases pr <;> cases st <;>
        simp [relayStep, BodyStream.read, controllerEnqueue, controllerError] <;> omega

theorem consumerStep_held (s : RelaySystem) :
    (consumerStep s).received.length + (consumerStep s).queue.length
        + (consumerStep s).source.chunks.length
      ≤ s.received.length + s.queue.length + s.source.chunks.length := by
  obtain ⟨⟨src, failure⟩, running, cc, queue, cr, st, pr, rcv, en⟩ := s
  cases en <;> cases pr <;> cases st <;> cases queue <;>
    (simp [consumerStep]; try omega)

theorem run_held (sched : List Actor) (s : RelaySystem) :
    (RelaySystem.run sched s).received.length + (RelaySystem.run sched s).queue.length
        + (RelaySystem.run sched s).source.chunks.length
      ≤ s.received.length + s.queue.length + s.source.chunks.length := by
  induction sched generalizing s with
  | nil => exact Nat.le_refl _
  | cons a sched ih =>
    rw [run_cons]
    refine Nat.le_trans (ih _) ?_
    cases a
    · exact relayStep_held s
    · exact consumerStep_held s

theorem relay_fills (cs rest : List Chunk) (failure : Option String) (cc : Nat)
    (queue rcv : List Chunk) (en : Option Ending) :
    RelaySystem.run (List.replicate cs.length Actor.relay)
        { source := ⟨cs ++ rest, failure⟩, running := true, chunkCount := cc, queue := queue,
          closeRequested := false, state := .readable, pendingRead := false,
          received := rcv, ending := en } =
      { source := ⟨rest, failure⟩, running := true, chunkCount := cc + cs.length,
        queue := queue ++ cs, closeRequested := false, state := .readable,
        pendingRead := false, received := rcv, ending := en } := by
  induction cs generalizing cc queue with
  | nil => simp [RelaySystem.run]
  | cons c cs ih =>
    rw [List.length_cons, List.replicate_succ, run_cons]
    have hstep : RelaySystem.step
        { source := ⟨c :: cs ++ rest, failure⟩, running := true, chunkCount := cc,
          queue := queue, closeRequested := false, state := .readable, pendingRead := false,
          received := rcv, ending := en } Actor.relay =
        { source := ⟨cs ++ rest, failure⟩, running := true, chunkCount := cc + 1,
          queue := queue ++ [c], closeRequested := false, state := .readable,
          pendingRead := false, received := rcv, ending := en } := by
      simp [RelaySystem.step, relayStep, BodyStream.read, controllerEnqueue]
    rw [hstep, ih]
    simp [Nat.add_assoc, Nat.add_comm 1]

/-- C16 as stated fails: no bound holds for all upstream bodies. With `B + 1`
chunks upstream and `B + 1` steps of the relay before the consumer reads, the
queue holds `B + 1` chunks. -/
theorem relay_backpressure_counterexample :
    ¬ ∃ B : Nat, ∀ (src : BodyStream) (sched : List Actor),
      (RelaySystem.run sched (RelaySystem.init src)).queue.length ≤ B := by
  rintro ⟨B, h⟩
  have h0 := h ⟨List.replicate (B + 1) [], none⟩ (List.replicate (B + 1) Actor.relay)
  have hf := relay_fills (List.replicate (B + 1) []) [] none 0 [] [] none
  simp only [List.length_replicate, List.append_nil, List.nil_append] at hf
  rw [RelaySystem.init, hf] at h0
  simp at h0

/-- C16, amended: the relay reads upstream whether or not the consumer has
asked for a chunk. In every reachable state the chunks received, queued and
still upstream number at most the chunks of the upstream body, so the queue
holds at most as many chunks as the body delivers; and that bound is reached:
after as many relay steps as the body has chunks, with no consumer step, the
whole body is in the queue. -/
theorem relay_backpressure (src : BodyStream) (sched : List Actor) :
    (RelaySystem.run sched (RelaySystem.init src)).queue.length ≤ src.chunks.length
    ∧ (RelaySystem.run (List.replicate src.chunks.length Actor.relay)
        (RelaySystem.init src)).queue = src.chunks := by
  constructor
  · have h := run_held sched (RelaySystem.init src)
    simp only [RelaySystem.init, List.length_nil, Nat.zero_add] at h
    have h2 : (RelaySystem.run sched (RelaySystem.init src)).queue.length
        ≤ (RelaySystem.run sched (RelaySystem.init src)).received.length
          + (RelaySystem.run sched (RelaySystem.init src)).queue.length
          + (RelaySystem.run sched (RelaySystem.init src)).source.chunks.length := by
      omega
    exact Nat.le_trans h2 h
  · obtain ⟨chunks, failure⟩ := src
    have hf := relay_fills chunks [] failure 0 [] [] none
    simp only [List.append_nil, List.nil_append] at hf
    rw [RelaySystem.init, hf]

/-! ## Logger -/

/-- C17 at the failing input `LOG_LEVEL=CONSTRUCTOR`: the lower-cased value is
found by the `in` operator on `Object.prototype`, it becomes the configured
level, the comparison with its property value is false, and `logger.error`
writes nothing. -/
theorem error_level_not_shown :
    getConfiguredLogLevel (some "CONSTRUCTOR") = "constructor"
    ∧ shouldLog (some "CONSTRUCTOR") LogLevel.error = false
    ∧ ∀ timestamp message, logger.error (some "CONSTRUCTOR") timestamp message = none := by
  refine ⟨by decide, by decide, ?_⟩
  intro timestamp message
  have h : shouldLog (some "CONSTRUCTOR") LogLevel.error = false := by decide
  simp [logger.error, h]

/-- C18 at the failing input `LOG_LEVEL=__proto__`: the value is none of the
four level names, so the level in the words of the specification is `error`
and a message of level `error` is within it, yet the configured level is
`__proto__` and no level is shown, `error` included. -/
theorem level_order_broken :
    specConfiguredLevel (some "__proto__") = LogLevel.error
    ∧ LogLevel.error.rank ≤ (specConfiguredLevel (some "__proto__")).rank
    ∧ getConfiguredLogLevel (some "__proto__") = "__proto__"
    ∧ ∀ level, shouldLog (some "__proto__") level = false := by
  refine ⟨by decide, by decide, by decide, ?_⟩
  intro level
  cases level <;> decide

theorem priority_isSome_iff (k : String) :
    (LOG_LEVEL_PRIORITY k).isSome = true ↔
      k = "error" ∨ k = "warn" ∨ k = "info" ∨ k = "debug" := by
  unfold LOG_LEVEL_PRIORITY
  split_ifs <;> simp_all

/-- Away from the inherited property names the logger follows the order of
the levels: when the lower-cased `LOG_LEVEL` is no property name of
`Object.prototype`, a message of level `level` is shown exactly when `level`
is at most the level in the words of the specification. -/
theorem shouldLog_iff_rank (LOG_LEVEL : Option String) (level : LogLevel)
    (h : ∀ v, LOG_LEVEL = some v → toLowerCase v ∉ objectPrototypeKeys) :
    shouldLog LOG_LEVEL level = true ↔
      level.rank ≤ (specConfiguredLevel LOG_LEVEL).rank := by
  cases LOG_LEVEL with
  | none => cases level <;> decide
  | some v =>
    have hk := h v rfl
    unfold shouldLog currentLogLevel getConfiguredLogLevel specConfiguredLevel
    simp only
    by_cases h1 : toLowerCase v = "error"
    · rw [h1]
      cases level <;> decide
    · by_cases h2 : toLowerCase v = "warn"
      · rw [h2]
        cases level <;> decide
      · by_cases h3 : toLowerCase v = "info"
        · rw [h3]
          cases level <;> decide
        · by_cases h4 : toLowerCase v = "debug"
          · rw [h4]
            cases level <;> decide
          · have hp : (LOG_LEVEL_PRIORITY (toLowerCase v)).isSome = false := by
              rw [Bool.eq_false_iff]
              intro hs
              rcases (priority_isSome_iff _).1 hs with h | h | h | h <;> contradiction
            have hin : inLogLevelPriority (toLowerCase v) = false := by
              simp [inLogLevelPriority, hp, hk]
            simp only [hin, Bool.and_false, h2, h3, h4, if_false, Bool.false_eq_true]
            cases level <;> decide

theorem shouldLog_iff_rank_witness :
    shouldLog (some "Info") LogLevel.warn = true ↔
      LogLevel.warn.rank ≤ (specConfiguredLevel (some "Info")).rank :=
  shouldLog_iff_rank (some "Info") LogLevel.warn (by
    intro v hv
    cases hv
    decide)

/-- Away from the inherited property names a message of level `error` is
shown whatever `LOG_LEVEL` holds. -/
theorem error_shown_of_not_inherited (LOG_LEVEL : Option String)
    (h : ∀ v, LOG_LEVEL = some v → toLowerCase v ∉ objectPrototypeKeys) :
    shouldLog LOG_LEVEL LogLevel.error = true :=
  (shouldLog_iff_rank LOG_LEVEL LogLevel.error h).2 (Nat.zero_le _)

end DrawIO
